import Mathlib

/-!
Verification of the veilcams credential-testing, fuzzing and workflow core.

The TypeScript sources are shallowly embedded: every network interaction is
abstracted into an explicit environment (a function from requests to optional
responses, `none` modelling a thrown transport error), module-level caches
become explicit state threaded through the functions, and JS strings/numbers
become `String`/`Int`/`Nat`.  Floating point only occurs in the source in the
comparison `sizeDiff / maxSize < 0.1` on natural numbers bounded by string
lengths; for such values IEEE double division and comparison with the literal
`0.1` agree with the exact rational comparison `sizeDiff * 10 < maxSize`
(a flip would need `|10 * sizeDiff - maxSize| / maxSize < 2 ^ (-50)`, i.e.
strings longer than any JS string), so the embedding uses the integer form.
-/

namespace Veilcams

/-- Character-wise lowercasing, modelling `String.prototype.toLowerCase` /
the `i` regex flag on the ASCII data that the matched patterns consist of. -/
def lowerStr (s : String) : String := ⟨s.data.map Char.toLower⟩

/-- `segPrefix needle hay` holds when `needle` is a prefix of `hay`. -/
def segPrefix : List Char → List Char → Bool
  | [], _ => true
  | _ :: _, [] => false
  | a :: as, b :: bs => a == b && segPrefix as bs

/-- `hasSeg needle hay` holds when `needle` occurs contiguously in `hay`
(substring containment, as in a literal regex alternative). -/
def hasSeg (needle : List Char) : List Char → Bool
  | [] => needle.isEmpty
  | c :: rest => segPrefix needle (c :: rest) || hasSeg needle rest

/-- Case-insensitive substring test of a literal pattern. -/
def containsLower (needle hay : String) : Bool :=
  hasSeg (lowerStr needle).data (lowerStr hay).data

/-- JS regex `.` (without the `s` flag) matches anything but a line
terminator: `\n`, `\r`, U+2028, U+2029. -/
def isJsLineTerm (c : Char) : Bool :=
  c == '\n' || c == '\r' || c.toNat == 0x2028 || c.toNat == 0x2029

/-- Match of the regex fragment `sign.?out` at the head of the list:
`sign`, at most one non-line-terminator character, then `out`. -/
def signGapOutAt (l : List Char) : Bool :=
  segPrefix "sign".data l &&
    (segPrefix "out".data (l.drop 4) ||
      (match l.drop 4 with
       | [] => false
       | c :: rest => !isJsLineTerm c && segPrefix "out".data rest))

/-- Search of the regex fragment `sign.?out` anywhere in the list. -/
def hasSignGapOut : List Char → Bool
  | [] => false
  | c :: rest => signGapOutAt (c :: rest) || hasSignGapOut rest

/-- The literal alternatives of the `authIndicators` regex in
`isAuthenticatedResponseDifferent` (all but `sign.?out`). -/
def markerLiterals : List String :=
  ["logout", "dashboard", "welcome", "session", "authenticated", "token"]

/-- `authIndicators.test(body)` for the source regex
`/(logout|sign.?out|dashboard|welcome|session|authenticated|token)/i`. -/
def authIndicatorsTest (body : String) : Bool :=
  let b := (lowerStr body).data
  markerLiterals.any (fun m => hasSeg m.data b) || hasSignGapOut b

/-- The claim's marker set, as written in the spec: seven literal words,
with `sign-out` spelled with a hyphen. -/
def specC1MarkerList : List String :=
  ["logout", "sign-out", "dashboard", "welcome", "session", "authenticated", "token"]

/-- Containment of a spec marker word (case-insensitive), following the
claim's words rather than the source regex. -/
def specC1MarkersTest (body : String) : Bool :=
  specC1MarkerList.any (fun m => containsLower m body)

/-- A cached `(status, body)` pair; `status = -1` encodes an unreachable
baseline (the `catch` branch of `getBaseline`). -/
structure Resp where
  status : Int
  body : String
deriving Repr, DecidableEq

/-- Absolute difference of the two body lengths (`Math.abs(b - a)`). -/
def bodySizeDiff (b a : String) : Nat :=
  max b.length a.length - min b.length a.length

/-- Embedding of `isAuthenticatedResponseDifferent` from the
baseline-differential credential tester. -/
def isAuthenticatedResponseDifferent (baseline authed : Resp) : Bool :=
  if (baseline.status = 401 ∨ baseline.status = 403) ∧
      (200 ≤ authed.status ∧ authed.status < 400) then
    true
  else if baseline.status = -1 ∧ (200 ≤ authed.status ∧ authed.status < 400) then
    true
  else if baseline.status = authed.status then
    if baseline.body = authed.body then false
    else
      if bodySizeDiff baseline.body authed.body * 10 <
          max (max baseline.body.length authed.body.length) 1 then
        if authIndicatorsTest authed.body && !authIndicatorsTest baseline.body then
          true
        else false
      else true
  else if (200 ≤ authed.status ∧ authed.status < 400) ∧ 400 ≤ baseline.status then
    true
  else
    false

/-- The claim's five-way case analysis exactly as stated (markers read as the
spec's literal word set, including the hyphenated `sign-out`). -/
def specC1Case (baseline authed : Resp) : Prop :=
  ((baseline.status = 401 ∨ baseline.status = 403) ∧
      200 ≤ authed.status ∧ authed.status < 400)
  ∨ (baseline.status = -1 ∧ 200 ≤ authed.status ∧ authed.status < 400)
  ∨ (baseline.status = authed.status ∧ baseline.body ≠ authed.body ∧
      max baseline.body.length authed.body.length ≤
        bodySizeDiff baseline.body authed.body * 10)
  ∨ (baseline.status = authed.status ∧
      bodySizeDiff baseline.body authed.body * 10 <
        max baseline.body.length authed.body.length ∧
      specC1MarkersTest authed.body = true ∧ specC1MarkersTest baseline.body = false)
  ∨ ((200 ≤ authed.status ∧ authed.status < 400) ∧ 400 ≤ baseline.status)

instance (b a : Resp) : Decidable (specC1Case b a) := by
  unfold specC1Case; infer_instance

/-- The claim's case analysis amended only where the counterexample forces it:
the marker predicate is the source regex, whose `sign.?out` alternative also
matches `sign` + `out` with no separator or any single non-line-terminator
between, case-insensitively. -/
def amendedC1Case (baseline authed : Resp) : Prop :=
  ((baseline.status = 401 ∨ baseline.status = 403) ∧
      200 ≤ authed.status ∧ authed.status < 400)
  ∨ (baseline.status = -1 ∧ 200 ≤ authed.status ∧ authed.status < 400)
  ∨ (baseline.status = authed.status ∧ baseline.body ≠ authed.body ∧
      max baseline.body.length authed.body.length ≤
        bodySizeDiff baseline.body authed.body * 10)
  ∨ (baseline.status = authed.status ∧
      bodySizeDiff baseline.body authed.body * 10 <
        max baseline.body.length authed.body.length ∧
      authIndicatorsTest authed.body = true ∧ authIndicatorsTest baseline.body = false)
  ∨ ((200 ≤ authed.status ∧ authed.status < 400) ∧ 400 ≤ baseline.status)

/-- Wire-level HTTP answer: status, body (the stringified `resp.data`) and
the `www-authenticate` response header (empty when absent). -/
structure HttpAns where
  status : Int
  body : String
  www : String
deriving Repr, DecidableEq

/-- `Map.get` on an association list (insertion at the head, first match
wins, mirroring that `Map.set` is only called on a missing key). -/
def lookupA {α : Type} (cache : List (String × α)) (k : String) : Option α :=
  match cache with
  | [] => none
  | (k0, v) :: rest => if k0 = k then some v else lookupA rest k

/-- Embedding of `getBaseline`: the unauthenticated `(status, body)` pair for
a base URL, cached in `baselineCache`; a transport error (`env url = none`)
is cached as `(-1, "")`.  The third component counts network fetches (0 or 1). -/
def getBaseline (env : String → Option HttpAns) (cache : List (String × Resp))
    (url : String) : Resp × List (String × Resp) × Nat :=
  match lookupA cache url with
  | some b => (b, cache, 0)
  | none =>
    match env url with
    | some resp => (⟨resp.status, resp.body⟩, (url, ⟨resp.status, resp.body⟩) :: cache, 1)
    | none => (⟨-1, ""⟩, (url, ⟨-1, ""⟩) :: cache, 1)

/-- Number of network fetches performed for base URL `u` while serving the
baseline requests `urls` in order, starting from `cache`. -/
def baselineFetchCount (env : String → Option HttpAns) (cache : List (String × Resp))
    (urls : List String) (u : String) : Nat :=
  match urls with
  | [] => 0
  | url :: rest =>
    let r := getBaseline env cache url
    (if url = u then r.2.2 else 0) + baselineFetchCount env r.2.1 rest u

/-- Parameters of `computeDigestAuth` (the TS options object; `Option`
models fields that may be `undefined`). -/
structure DigestArgs where
  username : String
  password : String
  method : String
  uri : String
  realm : String
  nonce : String
  qop : Option String := none
  nc : Option String := none
  cnonce : Option String := none
  algorithm : Option String := none

/-- JS `x || d` on an optional string: `undefined` and `""` fall back. -/
def orDefault (o : Option String) (d : String) : String :=
  match o with
  | none => d
  | some s => if s = "" then d else s

/-- Embedding of `computeDigestAuth` (network utils).  The MD5 primitive is
`node:crypto` library code, abstracted as the parameter `md5`; `rand` stands
for the `randomBytes(8).toString("hex")` cnonce drawn when none is supplied. -/
def computeDigestAuth (md5 : String → String) (rand : String) (p : DigestArgs) : String :=
  let qop := orDefault p.qop ""
  let nc := orDefault p.nc "00000001"
  let cnonce := orDefault p.cnonce rand
  let isMd5Sess : Bool := match p.algorithm with
    | none => false
    | some a => lowerStr a == "md5-sess"
  let ha1base := md5 (p.username ++ ":" ++ p.realm ++ ":" ++ p.password)
  let ha1 := if isMd5Sess then md5 (ha1base ++ ":" ++ p.nonce ++ ":" ++ cnonce) else ha1base
  let ha2 := md5 (p.method ++ ":" ++ p.uri)
  let response :=
    if qop == "auth" || qop == "auth-int" then
      md5 (ha1 ++ ":" ++ p.nonce ++ ":" ++ nc ++ ":" ++ cnonce ++ ":" ++ qop ++ ":" ++ ha2)
    else
      md5 (ha1 ++ ":" ++ p.nonce ++ ":" ++ ha2)
  let base := "Digest username=\"" ++ p.username ++ "\", realm=\"" ++ p.realm ++
      "\", nonce=\"" ++ p.nonce ++ "\", uri=\"" ++ p.uri ++ "\", response=\"" ++ response ++ "\""
  let withQop :=
    if qop == "" then base
    else base ++ ", qop=" ++ qop ++ ", nc=" ++ nc ++ ", cnonce=\"" ++ cnonce ++ "\""
  match p.algorithm with
  | none => withQop
  | some a => if a = "" then withQop else withQop ++ ", algorithm=" ++ a

/-- The RFC 2617 computation as the spec words it: `HA1 = MD5(user:realm:pass)`,
replaced by `MD5(MD5(user:realm:pass):nonce:cnonce)` for `md5-sess`
(case-insensitive); `HA2 = MD5(method:uri)`; response
`MD5(HA1:nonce:nc:cnonce:qop:HA2)` for `qop` auth/auth-int and
`MD5(HA1:nonce:HA2)` otherwise; `nc` defaults to `00000001` when not
supplied.  The header layout is the RFC `Digest` parameter list, with the
qop/nc/cnonce and algorithm parameters present exactly when given. -/
def rfc2617ReferenceHeader (md5 : String → String)
    (username password realm nonce method uri : String)
    (qop algorithm nc : Option String) (cnonce : String) : String :=
  let ha1plain := md5 (username ++ ":" ++ realm ++ ":" ++ password)
  let ha1 : String :=
    match algorithm with
    | some a => if lowerStr a == "md5-sess" then
        md5 (ha1plain ++ ":" ++ nonce ++ ":" ++ cnonce)
      else ha1plain
    | none => ha1plain
  let ha2 := md5 (method ++ ":" ++ uri)
  let ncv := nc.getD "00000001"
  let qopv := qop.getD ""
  let response :=
    if qopv == "auth" || qopv == "auth-int" then
      md5 (ha1 ++ ":" ++ nonce ++ ":" ++ ncv ++ ":" ++ cnonce ++ ":" ++ qopv ++ ":" ++ ha2)
    else
      md5 (ha1 ++ ":" ++ nonce ++ ":" ++ ha2)
  let base := "Digest username=\"" ++ username ++ "\", realm=\"" ++ realm ++
      "\", nonce=\"" ++ nonce ++ "\", uri=\"" ++ uri ++ "\", response=\"" ++ response ++ "\""
  let withQop :=
    if qopv == "" then base
    else base ++ ", qop=" ++ qopv ++ ", nc=" ++ ncv ++ ", cnonce=\"" ++ cnonce ++ "\""
  match algorithm with
  | none => withQop
  | some a => if a = "" then withQop else withQop ++ ", algorithm=" ++ a

/-- Decimal digit character (0–9 map to their digit, everything else is
only reached for the final digit ≤ 9, mirroring number-to-string). -/
def digitCh : Nat → Char
  | 0 => '0'
  | 1 => '1'
  | 2 => '2'
  | 3 => '3'
  | 4 => '4'
  | 5 => '5'
  | 6 => '6'
  | 7 => '7'
  | 8 => '8'
  | _ => '9'

/-- Decimal representation of a natural, most significant digit first,
prepended to `acc` (models the JS template interpolation of a number).
Structural recursion on a fuel argument so that the kernel can evaluate it;
the fuel is always at least the digit count when entered through `decRepr`. -/
def decAux : Nat → Nat → List Char → List Char
  | 0, n, acc => digitCh (n % 10) :: acc
  | fuel + 1, n, acc =>
    if n < 10 then digitCh n :: acc
    else decAux fuel (n / 10) (digitCh (n % 10) :: acc)

/-- Decimal digit list of a natural number. -/
def decRepr (n : Nat) : List Char := decAux n n []

/-- JS string interpolation of a non-negative number value. -/
def natToStr (n : Nat) : String := ⟨decRepr n⟩

/-- JS string interpolation of a possibly negative integer. -/
def intToStr (i : Int) : String :=
  if i < 0 then "-" ++ natToStr i.natAbs else natToStr i.toNat

/-- Camera vendors of the fingerprint data model (`tpLink` is `tp-link`). -/
inductive CameraVendor
  | hikvision | dahua | axis | reolink | amcrest | foscam | tpLink | uniview
  | vivotek | hanwha | bosch | unknown
deriving Repr, DecidableEq

/-- Authentication types detected by fingerprinting. -/
inductive AuthType
  | none | basic | digest | form | bearer | unknown
deriving Repr, DecidableEq

/-- Protocols a fingerprinted host may advertise. -/
inductive ProtocolType
  | http | https | rtsp | onvif | telnet | ssh
deriving Repr, DecidableEq

/-- The fields of `FingerprintResult` read by the credential tester and the
protocol fuzzer (model/firmware/banner/header fields are never read by the
embedded functions and are omitted). -/
structure FingerprintResult where
  ip : String
  port : Nat
  vendor : CameraVendor
  protocols : List ProtocolType
  authType : AuthType
deriving Repr, DecidableEq

/-- A username/password pair. -/
structure Credential where
  username : String
  password : String
deriving Repr, DecidableEq

/-- A credential test attempt result.  The RFC-3339 timestamp is produced
from the wall clock and is omitted from the embedding (no claim reads it). -/
structure CredentialTestResult where
  ip : String
  port : Nat
  vendor : CameraVendor
  protocol : String
  credential : Credential
  success : Bool
  responseCode : Option Int
  evidence : String
deriving Repr, DecidableEq

/-- The configuration fields read by the credential tester. -/
structure CredentialsConfig where
  use_defaults : Bool
  custom : List Credential
  max_attempts_per_host : Nat
  delay_ms : Nat
deriving Repr, DecidableEq

/-- The protocol toggles read by the credential tester and fuzzer. -/
structure ProtocolsConfig where
  rtsp : Bool
deriving Repr, DecidableEq

/-- The slice of `VeilcamsConfig` the embedded modules read. -/
structure VeilcamsConfig where
  credentials : CredentialsConfig
  protocols : ProtocolsConfig
deriving Repr, DecidableEq

/-- `DEFAULT_CREDENTIALS` from `constants.ts`, a total table over the vendor
enum (so the source's `|| []` fallback is never taken). -/
def DEFAULT_CREDENTIALS : CameraVendor → List Credential
  | .hikvision =>
    [⟨"admin", "12345"⟩, ⟨"admin", "admin"⟩, ⟨"admin", "Admin12345"⟩,
     ⟨"admin", "hiklinux"⟩, ⟨"admin", ""⟩, ⟨"admin", "admin123"⟩, ⟨"admin", "password"⟩]
  | .dahua =>
    [⟨"admin", "admin"⟩, ⟨"admin", "admin123"⟩, ⟨"admin", ""⟩, ⟨"admin", "123456"⟩,
     ⟨"888888", "888888"⟩, ⟨"default", "default"⟩]
  | .axis =>
    [⟨"root", "root"⟩, ⟨"root", "pass"⟩, ⟨"root", ""⟩, ⟨"admin", "admin"⟩,
     ⟨"operator", "operator"⟩]
  | .reolink => [⟨"admin", ""⟩, ⟨"admin", "admin"⟩, ⟨"admin", "123456"⟩]
  | .amcrest => [⟨"admin", "admin"⟩, ⟨"admin", "admin123"⟩, ⟨"admin", ""⟩]
  | .foscam => [⟨"admin", ""⟩, ⟨"admin", "admin"⟩, ⟨"admin", "foscam"⟩]
  | .tpLink => [⟨"admin", "admin"⟩, ⟨"admin", "2211"⟩, ⟨"admin", ""⟩]
  | .uniview => [⟨"admin", "123456"⟩, ⟨"admin", "admin"⟩]
  | .vivotek => [⟨"root", ""⟩, ⟨"root", "root"⟩, ⟨"admin", "admin"⟩]
  | .hanwha => [⟨"admin", "4321"⟩, ⟨"admin", "admin"⟩, ⟨"admin", ""⟩]
  | .bosch => [⟨"admin", ""⟩, ⟨"admin", "admin"⟩, ⟨"service", "service"⟩]
  | .unknown =>
    [⟨"admin", "admin"⟩, ⟨"admin", ""⟩, ⟨"admin", "12345"⟩, ⟨"admin", "123456"⟩,
     ⟨"admin", "password"⟩, ⟨"root", "root"⟩, ⟨"root", ""⟩, ⟨"user", "user"⟩,
     ⟨"admin", "1234"⟩, ⟨"admin", "admin123"⟩]

/-- `RTSP_PATHS` from `constants.ts`, total over the vendor enum. -/
def RTSP_PATHS : CameraVendor → List String
  | .hikvision =>
    ["/Streaming/Channels/101", "/Streaming/Channels/102", "/Streaming/Channels/201",
     "/h264/ch1/main/av_stream", "/h264/ch1/sub/av_stream", "/ISAPI/Streaming/channels/101"]
  | .dahua =>
    ["/cam/realmonitor?channel=1&subtype=0", "/cam/realmonitor?channel=1&subtype=1",
     "/live", "/MediaInput/h264"]
  | .axis =>
    ["/axis-media/media.amp", "/mpeg4/media.amp", "/mjpg/video.mjpg",
     "/axis-media/media.amp?videocodec=h264"]
  | .reolink => ["/h264Preview_01_main", "/h264Preview_01_sub", "/Preview_01_main"]
  | .amcrest => ["/cam/realmonitor?channel=1&subtype=0", "/cam/realmonitor?channel=1&subtype=1"]
  | .foscam => ["/videoMain", "/videoSub", "/video1"]
  | .tpLink => ["/stream1", "/stream2"]
  | .uniview => ["/unicast/c1/s0/live", "/unicast/c1/s1/live"]
  | .vivotek => ["/live.sdp", "/live2.sdp", "/video.mp4"]
  | .hanwha => ["/profile2/media.smp", "/profile1/media.smp"]
  | .bosch => ["/rtsp_tunnel", "/video"]
  | .unknown =>
    ["/live", "/stream", "/stream1", "/ch1", "/ch01.264", "/0", "/1", "/video",
     "/media/video1", "/live/ch0", "/live/ch1", "/live.sdp", "/h264", "/mpeg4", "/cam1"]

/-- `getVendorLoginEndpoints`: vendor-specific login API endpoints used when
`authType` is `none`, with the generic fallback list. -/
def getVendorLoginEndpoints : CameraVendor → List String
  | .hikvision => ["/ISAPI/Security/userCheck", "/ISAPI/Security/userValidate"]
  | .dahua => ["/RPC2_Login", "/cgi-bin/global.login"]
  | .axis => ["/axis-cgi/param.cgi?action=list&group=root.Properties"]
  | .reolink => ["/api.cgi?cmd=Login"]
  | .amcrest => ["/RPC2_Login"]
  | .foscam => ["/cgi-bin/CGIProxy.fcgi?cmd=logIn"]
  | _ =>
    ["/ISAPI/Security/userCheck", "/RPC2_Login", "/api.cgi?cmd=Login", "/login",
     "/cgi-bin/global.login"]

/-- The fixed form-login endpoint list of the `form` branch. -/
def formLoginEndpoints : List String :=
  ["/RPC2_Login", "/ISAPI/Security/userCheck", "/cgi-bin/global.login",
   "/api.cgi?cmd=Login", "/login.cgi", "/login"]

/-- Generic scan: does `p` hold of some suffix of the list? -/
def anyTail (p : List Char → Bool) : List Char → Bool
  | [] => p []
  | c :: rest => p (c :: rest) || anyTail p rest

/-- JS `\s` on the ASCII range (the regexes here never meet the Unicode
space characters `\s` additionally matches). -/
def isJsWs (c : Char) : Bool :=
  c == ' ' || c == '\t' || c == '\n' || c == '\r' || c.toNat == 11 || c.toNat == 12

/-- Case-insensitive containment of one of several literal alternatives. -/
def anyLit (lits : List String) (body : String) : Bool :=
  lits.any (fun m => containsLower m body)

/-- Match of `"key"\s*:\s*val` at the head of the (lowercased) list. -/
def kvAt (pre val l : List Char) : Bool :=
  segPrefix pre l &&
    (match (l.drop pre.length).dropWhile isJsWs with
     | ':' :: r2 => segPrefix val (r2.dropWhile isJsWs)
     | _ => false)

/-- Search of `"key"\s*:\s*val` anywhere in the body, case-insensitive. -/
def kvSearch (key val : String) (body : String) : Bool :=
  anyTail (fun l => kvAt ('"' :: (lowerStr key).data ++ ['"']) (lowerStr val).data l)
    (lowerStr body).data

/-- Search of `"statusValue"\s*:\s*[45]\d\d` in the body, case-insensitive. -/
def svErrSearch (body : String) : Bool :=
  anyTail
    (fun l =>
      segPrefix "\"statusvalue\"".data l &&
        (match (l.drop 13).dropWhile isJsWs with
         | ':' :: r2 =>
           match r2.dropWhile isJsWs with
           | c1 :: c2 :: c3 :: _ =>
             (c1 == '4' || c1 == '5') && c2.isDigit && c3.isDigit
           | _ => false
         | _ => false))
    (lowerStr body).data

/-- `/(error|fail|invalid|wrong|denied)/i` of the form branch. -/
def formErrTest (body : String) : Bool :=
  anyLit ["error", "fail", "invalid", "wrong", "denied"] body

/-- `/(success|ok|true|token|session)/i` of the form branch. -/
def formOkTest (body : String) : Bool :=
  anyLit ["success", "ok", "true", "token", "session"] body

/-- `hasExplicitSuccess` of the `none` branch: explicit positive markers. -/
def hasExplicitSuccess (body : String) : Bool :=
  kvSearch "success" "true" body || kvSearch "statusValue" "200" body ||
    kvSearch "result" "true" body || kvSearch "authorized" "true" body ||
    anyLit ["token", "sessionID"] body

/-- `hasErrorIndicators` of the `none` branch: negative markers. -/
def hasErrorIndicators (body : String) : Bool :=
  anyLit ["error", "fail", "invalid", "wrong", "denied", "unauthorized"] body ||
    kvSearch "success" "false" body || svErrSearch body

/-- HTTP requests the credential testers can issue, keyed so that an
environment (response oracle) can answer them; `postLogin` carries whether
the JSON body additionally repeats the username under the `username` key
(the `none` branch does, the `form` branch does not). -/
inductive HttpReq
  | getPlain (url : String)
  | getBasic (url : String) (cred : Credential)
  | getHeader (url : String) (authHeader : String)
  | postLogin (url : String) (cred : Credential) (withUsernameField : Bool)
deriving Repr, DecidableEq

/-- An HTTP response oracle; `none` models a thrown transport error. -/
def HttpEnv : Type := HttpReq → Option HttpAns

/-- An RTSP DESCRIBE oracle: ip, port, path, optional Basic credentials to
the resulting status code; `none` models a socket error or timeout. -/
def RtspEnv : Type := String → Nat → String → Option Credential → Option Int

/-- The fields of `parseWwwAuthenticate`'s result record that are read. -/
structure WwwAuthParams where
  realm : Option String := none
  nonce : Option String := none
  qop : Option String := none
  algorithm : Option String := none

/-- Scheme selection shared by both credential tester variants. -/
def schemeOf (t : FingerprintResult) : String :=
  if t.protocols.contains ProtocolType.https then "https" else "http"

/-- `"${scheme}://${ip}:${port}"`. -/
def baseUrlOf (t : FingerprintResult) : String :=
  schemeOf t ++ "://" ++ t.ip ++ ":" ++ natToStr t.port

/-- Skeleton of a result for a target, shared by all HTTP branches. -/
def httpResultBase (t : FingerprintResult) (cred : Credential) : CredentialTestResult :=
  { ip := t.ip, port := t.port, vendor := t.vendor, protocol := schemeOf t,
    credential := cred, success := false, responseCode := Option.none, evidence := "" }

/-- The `form` branch loop: first endpoint whose POST meets the form-success
criteria, with per-endpoint errors (`none`) skipped. -/
def firstFormSuccessAt (env : HttpEnv) (baseUrl : String) (cred : Credential) :
    List String → Option (Int × String)
  | [] => Option.none
  | e :: rest =>
    match env (HttpReq.postLogin (baseUrl ++ e) cred false) with
    | Option.none => firstFormSuccessAt env baseUrl cred rest
    | some resp =>
      if resp.status = 200 ∧ formErrTest resp.body = false ∧
          (formOkTest resp.body = true ∨ 100 < resp.body.length) then
        some (resp.status, e)
      else firstFormSuccessAt env baseUrl cred rest

/-- The `none`-auth branch loop: first vendor login endpoint answering 200
with explicit success markers and no error indicators. -/
def firstVendorSuccessAt (env : HttpEnv) (baseUrl : String) (cred : Credential) :
    List String → Option (Int × String)
  | [] => Option.none
  | e :: rest =>
    match env (HttpReq.postLogin (baseUrl ++ e) cred true) with
    | Option.none => firstVendorSuccessAt env baseUrl cred rest
    | some resp =>
      if resp.status = 200 ∧ hasExplicitSuccess resp.body = true ∧
          hasErrorIndicators resp.body = false then
        some (resp.status, e)
      else firstVendorSuccessAt env baseUrl cred rest

/-- Embedding of `testHttpAuth` of the baseline-differential credential
tester (the variant with `getBaseline`/`isAuthenticatedResponseDifferent`).
A thrown transport error surfaces as a result whose evidence starts with
`Connection error` (the embedded oracle carries no error message text). -/
def testHttpAuthP2 (env : HttpEnv) (pwa : String → WwwAuthParams)
    (md5 : String → String) (rand : String)
    (cache : List (String × Resp)) (t : FingerprintResult) (cred : Credential) :
    CredentialTestResult × List (String × Resp) :=
  let base := baseUrlOf t
  let g := getBaseline (fun url => env (HttpReq.getPlain url)) cache base
  let baseline := g.1
  let cache1 := g.2.1
  if t.authType = AuthType.basic ∨ t.authType = AuthType.unknown then
    match env (HttpReq.getBasic base cred) with
    | Option.none =>
      ({ httpResultBase t cred with evidence := "Connection error" }, cache1)
    | some resp =>
      let statusOk := decide (200 ≤ resp.status ∧ resp.status < 400 ∧ resp.status ≠ 401)
      let genuine := statusOk &&
        isAuthenticatedResponseDifferent baseline ⟨resp.status, resp.body⟩
      ({ httpResultBase t cred with
          success := genuine,
          responseCode := some resp.status,
          evidence :=
            if genuine then
              "HTTP " ++ intToStr resp.status ++
                " — authenticated access granted via Basic auth (verified against unauthenticated baseline)"
            else if statusOk then
              "HTTP " ++ intToStr resp.status ++
                " — server responds identically with and without credentials (no auth enforced on root page)"
            else
              "HTTP " ++ intToStr resp.status ++ " — authentication failed" }, cache1)
  else if t.authType = AuthType.digest then
    match env (HttpReq.getPlain base) with
    | Option.none =>
      ({ httpResultBase t cred with evidence := "Connection error" }, cache1)
    | some ch =>
      let params := pwa ch.www
      let authHeader := computeDigestAuth md5 rand
        { username := cred.username, password := cred.password, method := "GET",
          uri := "/", realm := orDefault params.realm "",
          nonce := orDefault params.nonce "",
          qop := params.qop, algorithm := params.algorithm }
      match env (HttpReq.getHeader base authHeader) with
      | Option.none =>
        ({ httpResultBase t cred with evidence := "Connection error" }, cache1)
      | some resp =>
        let statusOk := decide (200 ≤ resp.status ∧ resp.status < 400)
        let genuine := statusOk &&
          isAuthenticatedResponseDifferent ⟨ch.status, ch.body⟩ ⟨resp.status, resp.body⟩
        ({ httpResultBase t cred with
            success := genuine,
            responseCode := some resp.status,
            evidence :=
              if genuine then
                "HTTP " ++ intToStr resp.status ++
                  " — authenticated access granted via Digest auth (challenge was " ++
                  intToStr ch.status ++ ")"
              else
                "HTTP " ++ intToStr resp.status ++ " — Digest authentication failed" },
          cache1)
  else
    let formHit : Option (Int × String) :=
      if t.authType = AuthType.form then
        firstFormSuccessAt env base cred formLoginEndpoints
      else Option.none
    match formHit with
    | some se =>
      ({ httpResultBase t cred with
          success := true, responseCode := some se.1,
          evidence := "HTTP " ++ intToStr se.1 ++ " via " ++ se.2 ++
            " — form login successful" }, cache1)
    | Option.none =>
      if t.authType = AuthType.none then
        match firstVendorSuccessAt env base cred (getVendorLoginEndpoints t.vendor) with
        | some se =>
          ({ httpResultBase t cred with
              success := true, responseCode := some se.1,
              evidence := "HTTP " ++ intToStr se.1 ++ " via " ++ se.2 ++
                " — vendor API login confirmed (explicit success response)" }, cache1)
        | Option.none =>
          ({ httpResultBase t cred with
              success := false, responseCode := some baseline.status,
              evidence := "No authentication enforced on root page — tested vendor API endpoints, no valid login confirmed" },
            cache1)
      else
        match env (HttpReq.getBasic base cred) with
        | Option.none =>
          ({ httpResultBase t cred with evidence := "Connection error" }, cache1)
        | some resp =>
          let statusOk := decide (200 ≤ resp.status ∧ resp.status < 400 ∧ resp.status ≠ 401)
          let genuine := statusOk &&
            isAuthenticatedResponseDifferent baseline ⟨resp.status, resp.body⟩
          ({ httpResultBase t cred with
              success := genuine,
              responseCode := some resp.status,
              evidence :=
                if genuine then
                  "HTTP " ++ intToStr resp.status ++
                    " — authenticated access granted (verified against unauthenticated baseline)"
                else if statusOk then
                  "HTTP " ++ intToStr resp.status ++
                    " — server responds identically with and without credentials"
                else
                  "HTTP " ++ intToStr resp.status ++ " — authentication failed" },
            cache1)

/-- Embedding of `testHttpAuth` of `src/modules/credential-tester.ts` (the
variant without baseline-differential validation).  It issues the same
requests through the same oracle type; success is purely status-based. -/
def testHttpAuthModule (env : HttpEnv) (pwa : String → WwwAuthParams)
    (md5 : String → String) (rand : String)
    (t : FingerprintResult) (cred : Credential) : CredentialTestResult :=
  let base := baseUrlOf t
  if t.authType = AuthType.basic ∨ t.authType = AuthType.unknown then
    match env (HttpReq.getBasic base cred) with
    | Option.none => { httpResultBase t cred with evidence := "Connection error" }
    | some resp =>
      let ok := decide (200 ≤ resp.status ∧ resp.status < 400 ∧ resp.status ≠ 401)
      { httpResultBase t cred with
          success := ok, responseCode := some resp.status,
          evidence :=
            if ok then
              "HTTP " ++ intToStr resp.status ++
                " — authenticated access granted via Basic auth"
            else "HTTP " ++ intToStr resp.status ++ " — authentication failed" }
  else if t.authType = AuthType.digest then
    match env (HttpReq.getPlain base) with
    | Option.none => { httpResultBase t cred with evidence := "Connection error" }
    | some ch =>
      let params := pwa ch.www
      let authHeader := computeDigestAuth md5 rand
        { username := cred.username, password := cred.password, method := "GET",
          uri := "/", realm := orDefault params.realm "",
          nonce := orDefault params.nonce "",
          qop := params.qop, algorithm := params.algorithm }
      match env (HttpReq.getHeader base authHeader) with
      | Option.none => { httpResultBase t cred with evidence := "Connection error" }
      | some resp =>
        let ok := decide (200 ≤ resp.status ∧ resp.status < 400)
        { httpResultBase t cred with
            success := ok, responseCode := some resp.status,
            evidence :=
              if ok then
                "HTTP " ++ intToStr resp.status ++
                  " — authenticated access granted via Digest auth"
              else
                "HTTP " ++ intToStr resp.status ++ " — Digest authentication failed" }
  else
    let formHit : Option (Int × String) :=
      if t.authType = AuthType.form then
        firstFormSuccessAt env base cred formLoginEndpoints
      else Option.none
    match formHit with
    | some se =>
      { httpResultBase t cred with
          success := true, responseCode := some se.1,
          evidence := "HTTP " ++ intToStr se.1 ++ " via " ++ se.2 ++
            " — form login successful" }
    | Option.none =>
      match env (HttpReq.getBasic base cred) with
      | Option.none => { httpResultBase t cred with evidence := "Connection error" }
      | some resp =>
        let ok := decide (200 ≤ resp.status ∧ resp.status < 400 ∧ resp.status ≠ 401)
        { httpResultBase t cred with
            success := ok, responseCode := some resp.status,
            evidence :=
              if ok then
                "HTTP " ++ intToStr resp.status ++ " — authenticated access granted"
              else "HTTP " ++ intToStr resp.status ++ " — authentication failed" }

/-- The known RTSP port list used for port selection and owner preference. -/
def rtspKnownPorts : List Nat := [554, 8554, 8555, 10554]

/-- `[554, 8554, 8555, 10554].find(p => p === target.port) || 554`, guarded
by the target advertising RTSP. -/
def rtspPortOf (t : FingerprintResult) : Nat :=
  if t.protocols.contains ProtocolType.rtsp then
    if rtspKnownPorts.contains t.port then t.port else 554
  else 554

/-- `(RTSP_PATHS[vendor] || RTSP_PATHS.unknown)[0] || "/"` (the table is
total, so the first fallback never fires). -/
def rtspTestPathOf (t : FingerprintResult) : String :=
  match RTSP_PATHS t.vendor with
  | [] => "/"
  | p :: _ => p

/-- Cache key `"${ip}:${port}:${streamPath}"` of the RTSP unauth cache. -/
def rtspKeyOf (ip : String) (port : Nat) (path : String) : String :=
  ip ++ ":" ++ natToStr port ++ ":" ++ path

/-- Embedding of `isRtspUnauthenticated` with its module-level cache made
explicit; the third component counts unauthenticated DESCRIBE probes. -/
def isRtspUnauthenticated (env : RtspEnv) (cache : List (String × Bool))
    (ip : String) (port : Nat) (path : String) : Bool × List (String × Bool) × Nat :=
  match lookupA cache (rtspKeyOf ip port path) with
  | some b => (b, cache, 0)
  | Option.none =>
    match env ip port path Option.none with
    | some code =>
      let isOpen := decide (code = 200)
      (isOpen, (rtspKeyOf ip port path, isOpen) :: cache, 1)
    | Option.none => (false, (rtspKeyOf ip port path, false) :: cache, 1)

/-- Skeleton of an RTSP attempt result. -/
def rtspResultBase (t : FingerprintResult) (port : Nat) (cred : Credential) :
    CredentialTestResult :=
  { ip := t.ip, port := port, vendor := t.vendor, protocol := "rtsp",
    credential := cred, success := false, responseCode := Option.none, evidence := "" }

/-- The evidence string returned when the stream is open without auth. -/
def unauthEvidence (path : String) : String :=
  "RTSP stream at " ++ path ++
    " is accessible without any credentials — credential test not applicable (unauthenticated access is the real finding)"

/-- Embedding of `testRtspAuth` of the baseline-differential variant: the
unauthenticated DESCRIBE is checked (and cached) first; credentials are only
meaningful when it was denied. -/
def testRtspAuthP2 (env : RtspEnv) (cache : List (String × Bool))
    (t : FingerprintResult) (cred : Credential) :
    CredentialTestResult × List (String × Bool) :=
  let port := rtspPortOf t
  let path := rtspTestPathOf t
  let u := isRtspUnauthenticated env cache t.ip port path
  if u.1 then
    ({ rtspResultBase t port cred with
        success := false, responseCode := some 200,
        evidence := unauthEvidence path }, u.2.1)
  else
    match env t.ip port path (some cred) with
    | Option.none =>
      ({ rtspResultBase t port cred with evidence := "RTSP error" }, u.2.1)
    | some code =>
      let ok := decide (code = 200)
      ({ rtspResultBase t port cred with
          success := ok, responseCode := some code,
          evidence :=
            if ok then
              "RTSP " ++ intToStr code ++ " — stream access granted at " ++ path ++
                " (unauthenticated access was denied, credential is valid)"
            else
              "RTSP " ++ intToStr code ++ " — authentication failed" }, u.2.1)

/-- Embedding of `testRtspAuth` of `src/modules/credential-tester.ts`: a
bare credentialed DESCRIBE, 200 meaning success. -/
def testRtspAuthModule (env : RtspEnv) (t : FingerprintResult) (cred : Credential) :
    CredentialTestResult :=
  let port := rtspPortOf t
  let path := rtspTestPathOf t
  match env t.ip port path (some cred) with
  | Option.none => { rtspResultBase t port cred with evidence := "RTSP error" }
  | some code =>
    let ok := decide (code = 200)
    { rtspResultBase t port cred with
        success := ok, responseCode := some code,
        evidence :=
          if ok then
            "RTSP " ++ intToStr code ++ " — stream access granted at " ++ path
          else
            "RTSP " ++ intToStr code ++ " — authentication failed" }

/-- `"${username}:${password}"`, the deduplication key. -/
def credKey (c : Credential) : String := c.username ++ ":" ++ c.password

/-- `addCred` of `buildCredentialList`: push unless the key was seen. -/
def addCred (st : List String × List Credential) (c : Credential) :
    List String × List Credential :=
  if st.1.contains (credKey c) then st else (credKey c :: st.1, st.2 ++ [c])

/-- Embedding of `buildCredentialList`: vendor defaults (when enabled), then
generic defaults (when the vendor is known), then custom credentials, each
passed through the seen-set filter in order. -/
def buildCredentialList (t : FingerprintResult) (cfg : VeilcamsConfig) :
    List Credential :=
  let l1 := if cfg.credentials.use_defaults then DEFAULT_CREDENTIALS t.vendor else []
  let l2 :=
    if cfg.credentials.use_defaults ∧ t.vendor ≠ CameraVendor.unknown then
      DEFAULT_CREDENTIALS CameraVendor.unknown
    else []
  ((l1 ++ l2 ++ cfg.credentials.custom).foldl addCred ([], [])).2

/-- The two in-memory caches of one credential-tester activity invocation. -/
structure TesterState where
  baselineCache : List (String × Resp)
  rtspCache : List (String × Bool)
deriving Repr, DecidableEq

/-- The credential loop of `testHost` (shared by both variants' structure;
instantiated here with the baseline-differential attempt functions): stop on
the attempts cap or after the first success, try HTTP then RTSP per
credential.  The rate limiter and inter-attempt delay only pace timing and
are not modelled. -/
def testHostLoop (henv : HttpEnv) (renv : RtspEnv) (pwa : String → WwwAuthParams)
    (md5 : String → String) (rand : String)
    (t : FingerprintResult) (cfg : VeilcamsConfig) :
    List Credential → Nat → TesterState → List CredentialTestResult × TesterState
  | [], _, st => ([], st)
  | cred :: rest, attempts, st =>
    if cfg.credentials.max_attempts_per_host ≤ attempts then ([], st)
    else if t.protocols.contains ProtocolType.http ||
        t.protocols.contains ProtocolType.https then
      let hr := testHttpAuthP2 henv pwa md5 rand st.baselineCache t cred
      let st1 : TesterState := { st with baselineCache := hr.2 }
      if hr.1.success then ([hr.1], st1)
      else if t.protocols.contains ProtocolType.rtsp && cfg.protocols.rtsp then
        let rr := testRtspAuthP2 renv st1.rtspCache t cred
        let st2 : TesterState := { st1 with rtspCache := rr.2 }
        if rr.1.success then ([hr.1, rr.1], st2)
        else
          let rec1 := testHostLoop henv renv pwa md5 rand t cfg rest (attempts + 2) st2
          (hr.1 :: rr.1 :: rec1.1, rec1.2)
      else
        let rec1 := testHostLoop henv renv pwa md5 rand t cfg rest (attempts + 1) st1
        (hr.1 :: rec1.1, rec1.2)
    else if t.protocols.contains ProtocolType.rtsp && cfg.protocols.rtsp then
      let rr := testRtspAuthP2 renv st.rtspCache t cred
      let st2 : TesterState := { st with rtspCache := rr.2 }
      if rr.1.success then ([rr.1], st2)
      else
        let rec1 := testHostLoop henv renv pwa md5 rand t cfg rest (attempts + 1) st2
        (rr.1 :: rec1.1, rec1.2)
    else
      testHostLoop henv renv pwa md5 rand t cfg rest attempts st

/-- Embedding of `testHost` of the baseline-differential variant. -/
def testHost (henv : HttpEnv) (renv : RtspEnv) (pwa : String → WwwAuthParams)
    (md5 : String → String) (rand : String)
    (t : FingerprintResult) (cfg : VeilcamsConfig) (st : TesterState) :
    List CredentialTestResult × TesterState :=
  testHostLoop henv renv pwa md5 rand t cfg (buildCredentialList t cfg) 0 st

/-- Keep-first deduplication by credential key, written from the claim's
words ("the first occurrence of each key is the one kept"): an element is
kept iff its key is neither in `seen` nor the key of an earlier kept
element. -/
def dedupByKeySeen (seen : List String) : List Credential → List Credential
  | [] => []
  | c :: rest =>
    if seen.contains (credKey c) then dedupByKeySeen seen rest
    else c :: dedupByKeySeen (credKey c :: seen) rest

/-- A host whose root URL answers 200 with the same body `B` no matter how
the request is authenticated (the hypothesis of the baseline-differentiation
property). -/
structure IdenticalRootEnv (env : HttpEnv) (base : String) (B : String) : Prop where
  plain : ∃ a, env (HttpReq.getPlain base) = some a ∧ a.status = 200 ∧ a.body = B
  basic : ∀ c, ∃ a, env (HttpReq.getBasic base c) = some a ∧ a.status = 200 ∧ a.body = B
  header : ∀ h, ∃ a, env (HttpReq.getHeader base h) = some a ∧ a.status = 200 ∧ a.body = B

/-- Number of unauthenticated DESCRIBE probes issued under cache key `k`
while a sequence of `testRtspAuthP2` calls is served in order (the cache is
only ever written by `isRtspUnauthenticated`, whose updated cache is exactly
what `testRtspAuthP2` returns). -/
def rtspUnauthProbeCount (env : RtspEnv) (cache : List (String × Bool)) :
    List (FingerprintResult × Credential) → String → Nat
  | [], _ => 0
  | tc :: rest, k =>
    let u := isRtspUnauthenticated env cache tc.1.ip (rtspPortOf tc.1) (rtspTestPathOf tc.1)
    (if rtspKeyOf tc.1.ip (rtspPortOf tc.1) (rtspTestPathOf tc.1) = k then u.2.2 else 0) +
      rtspUnauthProbeCount env u.2.1 rest k

/-- A trivial `parseWwwAuthenticate` stand-in for concrete evaluations. -/
def pwaTrivial : String → WwwAuthParams := fun _ => {}

/-- C2 counterexample host: the root (and every other GET) serves the same
200 page to everyone, but the Hikvision `userCheck` login API answers an
explicit success. -/
def bodyC2 : String := "landing page"

/-- C2 counterexample target: fingerprinted with `authType = none`. -/
def targetC2 : FingerprintResult :=
  { ip := "192.0.2.11", port := 80, vendor := CameraVendor.hikvision,
    protocols := [ProtocolType.http], authType := AuthType.none }

/-- C2 counterexample oracle. -/
def envC2 : HttpEnv := fun r =>
  match r with
  | HttpReq.postLogin url _ true =>
    if url = baseUrlOf targetC2 ++ "/ISAPI/Security/userCheck" then
      some ⟨200, "\"success\":true", ""⟩
    else some ⟨200, bodyC2, ""⟩
  | _ => some ⟨200, bodyC2, ""⟩

/-- C3 witness target on the RTSP port. -/
def targetC3 : FingerprintResult :=
  { ip := "192.0.2.12", port := 554, vendor := CameraVendor.unknown,
    protocols := [ProtocolType.rtsp], authType := AuthType.unknown }

/-- C3 witness oracle: every DESCRIBE, authenticated or not, answers 200. -/
def envC3 : RtspEnv := fun _ _ _ _ => some 200

/-- C4 counterexample target: Basic auth advertised over HTTP. -/
def targetC4 : FingerprintResult :=
  { ip := "192.0.2.10", port := 80, vendor := CameraVendor.unknown,
    protocols := [ProtocolType.http], authType := AuthType.basic }

/-- C4 counterexample oracle: every request gets the same 200 page, so the
credentialed response is indistinguishable from the baseline. -/
def envC4 : HttpEnv := fun _ => some ⟨200, "x", ""⟩

/-- C4 witness oracle: the plain root is a 401 challenge while the
credentialed request is served content, a genuine Basic-auth success. -/
def envC4w : HttpEnv := fun r =>
  match r with
  | HttpReq.getBasic _ _ => some ⟨200, "welcome admin", ""⟩
  | _ => some ⟨401, "auth required", ""⟩

/-- A configuration with defaults enabled and one custom credential, for
concrete evaluations. -/
def cfgDefaults : VeilcamsConfig :=
  { credentials :=
      { use_defaults := true, custom := [⟨"admin", "admin"⟩],
        max_attempts_per_host := 10, delay_ms := 0 },
    protocols := { rtsp := true } }

/-- A one-custom-credential configuration without defaults, keeping
concrete evaluations small. -/
def cfgOneAttempt : VeilcamsConfig :=
  { credentials :=
      { use_defaults := false, custom := [⟨"admin", "admin"⟩],
        max_attempts_per_host := 5, delay_ms := 0 },
    protocols := { rtsp := false } }

/-- C2 witness target: Basic auth over HTTP. -/
def targetC2w : FingerprintResult :=
  { ip := "192.0.2.11", port := 80, vendor := CameraVendor.unknown,
    protocols := [ProtocolType.http], authType := AuthType.basic }

/-- C2 witness oracle: the identical 200 page for every request. -/
def envC2w : HttpEnv := fun _ => some ⟨200, "landing page", ""⟩

/-- An RTSP oracle that always fails at the transport level. -/
def renvTrivial : RtspEnv := fun _ _ _ _ => Option.none

/-- Settlement of one `Promise.allSettled` branch; the rejection reason is
only ever used for log text and is not modelled. -/
inductive Settled (α : Type)
  | fulfilled (value : α)
  | rejected
deriving Repr, DecidableEq

/-- Aggregated credential module result (workflow-level view). -/
structure CredentialModuleResult where
  results : List CredentialTestResult
  totalAttempts : Nat
  successfulLogins : Nat
  hostsCompromised : Nat
  durationMs : Nat
deriving Repr, DecidableEq

/-- One CVE check result; only the `vulnerable` flag is read downstream. -/
structure CveTestResult where
  vulnerable : Bool
deriving Repr, DecidableEq

/-- Aggregated CVE module result. -/
structure CveModuleResult where
  results : List CveTestResult
  totalChecks : Nat
  vulnerabilitiesFound : Nat
  criticalCount : Nat
  highCount : Nat
  durationMs : Nat
deriving Repr, DecidableEq

/-- One protocol-fuzzer finding (`type` is spelled `ftype`). -/
structure ProtocolFinding where
  ip : String
  port : Nat
  ftype : String
  protocol : String
  path : String
  severity : String
  description : String
  evidence : String
  authenticated : Bool
deriving Repr, DecidableEq

/-- Aggregated protocol module result. -/
structure ProtocolModuleResult where
  findings : List ProtocolFinding
  pathsTested : Nat
  findingsCount : Nat
  durationMs : Nat
deriving Repr, DecidableEq

/-- Aggregated exploitation result; the per-exploit payloads are abstracted. -/
structure ExploitationModuleResult where
  results : List String
  totalAttempts : Nat
  successfulExploits : Nat
  failedExploits : Nat
  skippedNoModule : Nat
  durationMs : Nat
deriving Repr, DecidableEq

/-- The workflow's in-memory state; `moduleStatuses` is a JS record whose
assignments are modelled by prepending (`lookupA` reads the newest entry). -/
structure WorkflowState where
  currentPhase : String
  currentModule : Option String
  completedModules : List String
  failedModules : List String
  moduleStatuses : List (String × String)
deriving Repr, DecidableEq

/-- Record assignment `state.moduleStatuses[k] = v`. -/
def setStatus (m : List (String × String)) (k v : String) : List (String × String) :=
  (k, v) :: m

/-- The zeroed credential result substituted for a rejected branch. -/
def zeroCredentialResult : CredentialModuleResult :=
  { results := [], totalAttempts := 0, successfulLogins := 0, hostsCompromised := 0,
    durationMs := 0 }

/-- The zeroed CVE result substituted for a rejected branch. -/
def zeroCveResult : CveModuleResult :=
  { results := [], totalChecks := 0, vulnerabilitiesFound := 0, criticalCount := 0,
    highCount := 0, durationMs := 0 }

/-- The zeroed protocol result substituted for a rejected branch. -/
def zeroProtocolResult : ProtocolModuleResult :=
  { findings := [], pathsTested := 0, findingsCount := 0, durationMs := 0 }

/-- The zeroed exploitation result substituted on exploitation failure. -/
def zeroExploitationResult : ExploitationModuleResult :=
  { results := [], totalAttempts := 0, successfulExploits := 0, failedExploits := 0,
    skippedNoModule := 0, durationMs := 0 }

/-- Outcome of phases 3 and 3.5 plus the entry into reporting. -/
structure TestingPhaseOutcome where
  credentialResult : CredentialModuleResult
  cveResult : CveModuleResult
  protocolResult : ProtocolModuleResult
  exploitationResult : Option ExploitationModuleResult
  exploitationRan : Bool
  state : WorkflowState
deriving Repr, DecidableEq

/-- Embedding of `veilcamsPipelineWorkflow` from the start of the testing
phase to the entry of the reporting phase: the three parallel branches are
settled independently (`Promise.allSettled`), a rejected branch yields its
zeroed result and a `failed` mark, exploitation runs exactly when the CVE
result reports at least one vulnerability (its own failure is caught and
zeroed), and control always reaches reporting. -/
def runTestingAndExploitationPhase (st0 : WorkflowState)
    (credSettled : Settled CredentialModuleResult)
    (cveSettled : Settled CveModuleResult)
    (protoSettled : Settled ProtocolModuleResult)
    (exploitSettled : Settled ExploitationModuleResult) : TestingPhaseOutcome :=
  let st1 : WorkflowState :=
    { st0 with currentPhase := "testing", currentModule := Option.none,
               moduleStatuses :=
                 setStatus (setStatus
                   (setStatus st0.moduleStatuses "credential-tester" "running")
                   "cve-scanner" "running") "protocol-fuzzer" "running" }
  let credentialResult :=
    match credSettled with
    | Settled.fulfilled v => v
    | Settled.rejected => zeroCredentialResult
  let st2 : WorkflowState :=
    match credSettled with
    | Settled.fulfilled _ =>
      { st1 with
          completedModules := st1.completedModules ++ ["credential-tester"]
          moduleStatuses := setStatus st1.moduleStatuses "credential-tester" "completed" }
    | Settled.rejected =>
      { st1 with
          failedModules := st1.failedModules ++ ["credential-tester"]
          moduleStatuses := setStatus st1.moduleStatuses "credential-tester" "failed" }
  let cveResult :=
    match cveSettled with
    | Settled.fulfilled v => v
    | Settled.rejected => zeroCveResult
  let st3 : WorkflowState :=
    match cveSettled with
    | Settled.fulfilled _ =>
      { st2 with
          completedModules := st2.completedModules ++ ["cve-scanner"]
          moduleStatuses := setStatus st2.moduleStatuses "cve-scanner" "completed" }
    | Settled.rejected =>
      { st2 with
          failedModules := st2.failedModules ++ ["cve-scanner"]
          moduleStatuses := setStatus st2.moduleStatuses "cve-scanner" "failed" }
  let protocolResult :=
    match protoSettled with
    | Settled.fulfilled v => v
    | Settled.rejected => zeroProtocolResult
  let st4 : WorkflowState :=
    match protoSettled with
    | Settled.fulfilled _ =>
      { st3 with
          completedModules := st3.completedModules ++ ["protocol-fuzzer"]
          moduleStatuses := setStatus st3.moduleStatuses "protocol-fuzzer" "completed" }
    | Settled.rejected =>
      { st3 with
          failedModules := st3.failedModules ++ ["protocol-fuzzer"]
          moduleStatuses := setStatus st3.moduleStatuses "protocol-fuzzer" "failed" }
  let exploitationRan := 0 < cveResult.vulnerabilitiesFound
  let exploitationResult : Option ExploitationModuleResult :=
    if 0 < cveResult.vulnerabilitiesFound then
      match exploitSettled with
      | Settled.fulfilled v => some v
      | Settled.rejected => some zeroExploitationResult
    else Option.none
  let st5 : WorkflowState :=
    if 0 < cveResult.vulnerabilitiesFound then
      match exploitSettled with
      | Settled.fulfilled _ =>
        { st4 with
            currentPhase := "exploitation"
            currentModule := some "exploitation"
            completedModules := st4.completedModules ++ ["exploitation"]
            moduleStatuses := setStatus
              (setStatus st4.moduleStatuses "exploitation" "running") "exploitation"
              "completed" }
      | Settled.rejected =>
        { st4 with
            currentPhase := "exploitation"
            currentModule := some "exploitation"
            failedModules := st4.failedModules ++ ["exploitation"]
            moduleStatuses := setStatus
              (setStatus st4.moduleStatuses "exploitation" "running") "exploitation"
              "failed" }
    else { st4 with moduleStatuses := setStatus st4.moduleStatuses "exploitation" "skipped" }
  let st6 : WorkflowState :=
    { st5 with
        currentPhase := "reporting"
        currentModule := some "report"
        moduleStatuses := setStatus st5.moduleStatuses "report" "running" }
  { credentialResult := credentialResult
    cveResult := cveResult
    protocolResult := protocolResult
    exploitationResult := exploitationResult
    exploitationRan := exploitationRan
    state := st6 }

/-- C6 witness state: the workflow just after fingerprinting completed. -/
def stW : WorkflowState :=
  { currentPhase := "fingerprinting"
    currentModule := some "fingerprint"
    completedModules := ["discovery", "fingerprint"]
    failedModules := []
    moduleStatuses := [] }

/-- C6 witness credential result. -/
def credW : CredentialModuleResult :=
  { results := [], totalAttempts := 3, successfulLogins := 1, hostsCompromised := 1,
    durationMs := 5 }

/-- C6 witness protocol result. -/
def protoW : ProtocolModuleResult :=
  { findings := [], pathsTested := 7, findingsCount := 0, durationMs := 4 }

/-- Session status persisted in `session.json`. -/
inductive SessionStatus
  | running | completed | failed
deriving Repr, DecidableEq

/-- The status slice of `SessionMetrics` as the `MetricsTracker` holds it. -/
structure SessionMetricsM where
  status : SessionStatus
deriving Repr, DecidableEq

/-- `MetricsTracker`'s constructor/`initialize`: status starts `running`. -/
def metricsInitialize : SessionMetricsM := { status := SessionStatus.running }

/-- `MetricsTracker.finalize`: persists `completed`. -/
def metricsFinalize (m : SessionMetricsM) : SessionMetricsM :=
  { m with status := SessionStatus.completed }

/-- `MetricsTracker.markFailed`: persists `failed`. -/
def metricsMarkFailed (m : SessionMetricsM) : SessionMetricsM :=
  { m with status := SessionStatus.failed }

/-- Which activities of a run succeed (`false` = the activity rejects after
all retries).  The phase-3 branch activities and exploitation only ever call
`startModule`/`endModule`, which never touch the session status, so they do
not appear. -/
structure RunScenario where
  discoveryOk : Bool
  discoveryEmpty : Bool
  fingerprintOk : Bool
  reportOk : Bool
deriving Repr, DecidableEq

/-- The `session.json` status when the workflow run terminates, composed
from the control flow of `veilcamsPipelineWorkflow`, the audit calls of the
activities, and the `MetricsTracker` transitions.  `AuditSession.finalize`
(hence `metricsFinalize`) is invoked exactly once, at the end of a
successful report activity; `AuditSession.markFailed` has no call site
anywhere in the repository, and every workflow failure path rethrows
without touching the metrics file. -/
def finalSessionStatus (sc : RunScenario) : SessionStatus :=
  let m := metricsInitialize
  if !sc.discoveryOk then m.status
  else if sc.discoveryEmpty then
    (if sc.reportOk then (metricsFinalize m).status else m.status)
  else if !sc.fingerprintOk then m.status
  else if sc.reportOk then (metricsFinalize m).status
  else m.status

/-- `"${target.ip}:${target.port}"`, the owner-map value. -/
def targetKeyOf (t : FingerprintResult) : String := t.ip ++ ":" ++ natToStr t.port

/-- Characters after the first `':'` of the list (the tail that
`split(':')` would cut the second segment from). -/
def afterColon : List Char → List Char
  | [] => []
  | c :: rest => if c = ':' then rest else afterColon rest

/-- `s.split(':')[1]` — the second segment; for a string without a colon the
JS index is `undefined`, which `parseInt` turns into NaN, and the empty list
returned here parses to `none` with the same downstream effect. -/
def secondSeg (s : String) : List Char :=
  (afterColon s.data).takeWhile (fun c => !(c = ':'))

/-- Accumulating decimal parse of a leading digit run. -/
def parseDigitsAux : Nat → List Char → Nat
  | v, [] => v
  | v, c :: rest => if c.isDigit then parseDigitsAux (v * 10 + (c.toNat - 48)) rest else v

/-- `parseInt` on the segment: leading decimal digits, `none` for NaN.  (The
segments reaching it here never start with whitespace or a sign.) -/
def jsParseInt (l : List Char) : Option Nat :=
  match l with
  | [] => Option.none
  | c :: _ => if c.isDigit then some (parseDigitsAux 0 l) else Option.none

/-- `rtspPorts.includes(parseInt(existingOwner.split(':')[1]))`, with
`includes(NaN)` being false. -/
def existingOwnerOnRtspPort (existing : String) : Bool :=
  match jsParseInt (secondSeg existing) with
  | some pp => rtspKnownPorts.contains pp
  | Option.none => false

/-- One iteration of the owner-election loop at the head of
`runProtocolFuzzer`: the first record of an IP advertising RTSP becomes the
owner; a later record on a known RTSP port replaces an owner whose
parsed-back port is not a known RTSP port.  `Map.set` is modelled by
prepending (`lookupA` reads the newest entry). -/
def ownerStep (rtspEnabled : Bool) (m : List (String × String))
    (t : FingerprintResult) : List (String × String) :=
  if rtspEnabled && t.protocols.contains ProtocolType.rtsp then
    match lookupA m t.ip with
    | Option.none => (t.ip, targetKeyOf t) :: m
    | some existing =>
      if rtspKnownPorts.contains t.port && !existingOwnerOnRtspPort existing then
        (t.ip, targetKeyOf t) :: m
      else m
  else m

/-- The owner-election loop over all targets. -/
def rtspFuzzOwnerMap (rtspEnabled : Bool) (targets : List FingerprintResult) :
    List (String × String) :=
  targets.foldl (ownerStep rtspEnabled) []

/-- The invariant carried through the owner-election fold: every owner entry
is the key of a processed RTSP-advertising record of that IP, every
processed RTSP-advertising record's IP has an owner, and whenever some
processed record of the IP advertises RTSP on a known RTSP port, the owner
is such a record. -/
def OwnerInv (processed : List FingerprintResult)
    (m : List (String × String)) : Prop :=
  (∀ ip v, lookupA m ip = some v →
    ∃ t ∈ processed, t.ip = ip ∧ t.protocols.contains ProtocolType.rtsp = true ∧
      v = targetKeyOf t) ∧
  (∀ t ∈ processed, t.protocols.contains ProtocolType.rtsp = true →
    (lookupA m t.ip).isSome) ∧
  (∀ ip v, lookupA m ip = some v →
    (∃ t ∈ processed, t.ip = ip ∧ t.protocols.contains ProtocolType.rtsp = true ∧
      rtspKnownPorts.contains t.port = true) →
    ∃ t ∈ processed, t.ip = ip ∧ t.protocols.contains ProtocolType.rtsp = true ∧
      v = targetKeyOf t ∧ rtspKnownPorts.contains t.port = true)

/-- Whether one target record performs the RTSP fuzzing pass in the run:
`fuzzHost` runs it iff RTSP is enabled, the record advertises RTSP, and
`skipRtsp` is false, i.e. the owner map's entry for the record's IP equals
the record's own key. -/
def performsRtspFuzz (cfg : VeilcamsConfig) (targets : List FingerprintResult)
    (t : FingerprintResult) : Bool :=
  cfg.protocols.rtsp && t.protocols.contains ProtocolType.rtsp &&
    decide (lookupA (rtspFuzzOwnerMap cfg.protocols.rtsp targets) t.ip =
      some (targetKeyOf t))

/-- The C9 counterexample record, listed twice in the input. -/
def tdup : FingerprintResult :=
  { ip := "192.0.2.20", port := 554, vendor := CameraVendor.unknown,
    protocols := [ProtocolType.rtsp], authType := AuthType.unknown }

/-- C9 witness record: the same IP on port 80, also advertising RTSP. -/
def t80w : FingerprintResult :=
  { ip := "192.0.2.20", port := 80, vendor := CameraVendor.unknown,
    protocols := [ProtocolType.http, ProtocolType.rtsp], authType := AuthType.basic }

/-- The value-accumulation mirror of `decAux`, used to state its parse-back. -/
def pushVal : Nat → Nat → Nat → Nat
  | 0, v, n => v * 10 + n % 10
  | fuel + 1, v, n => if n < 10 then v * 10 + n else pushVal fuel v (n / 10) * 10 + n % 10

/-- `10 ^ digits n`, the base `pushVal` shifts by (proof-only helper). -/
def multBase (n : Nat) : Nat :=
  if h : n < 10 then 10 else 10 * multBase (n / 10)
decreasing_by exact Nat.div_lt_self (by omega) (by omega)

/-- PromiseSettledResult of one task in `parallelLimit`: fulfilled with its
value or rejected with its reason. -/
inductive PSettled (α ε : Type)
  | fulfilled (value : α)
  | rejected (reason : ε)
deriving Repr, DecidableEq

/-- One `parallelLimit` worker between event-loop resumptions: about to run
its while-check, awaiting `tasks[i]()`, or returned from the loop. -/
inductive WStatus
  | idle
  | awaiting (i : Nat)
  | done
deriving Repr, DecidableEq

/-- Whether a worker currently holds a claimed task (is mid-await). -/
def WStatus.inFlight : WStatus → Bool
  | WStatus.awaiting _ => true
  | _ => false

/-- The shared state of a `parallelLimit` call: the shared `index` counter,
the `results` array (a slot stays `none` until its task settles) and the
worker pool. -/
structure PLState (α ε : Type) where
  nextIdx : Nat
  results : List (Option (PSettled α ε))
  workers : List WStatus
deriving Repr, DecidableEq

/-- The state right after `parallelLimit` sets up: a `new Array(tasks.length)`
of empty slots, `index = 0`, and `Math.min(concurrency, tasks.length)` workers
built by `Array.from` — an empty pool when the cap is zero or negative. -/
def plInit (α ε : Type) (cap : Int) (n : Nat) : PLState α ε :=
  { nextIdx := 0
    results := List.replicate n Option.none
    workers := List.replicate (min cap (n : Int)).toNat WStatus.idle }

/-- Event-loop interleaving of `parallelLimit` for a run whose task `i`
settles as `outcomes i`: at any await point any worker may be resumed.  A
resumed idle worker executes one synchronous segment — the while-check plus
`index++`, which no await separates, so the claim of an index is atomic — or
returns when the check fails.  A resumed awaiting worker has its
`await tasks[currentIndex]()` settle (normally or by throwing, which the
try/catch converts to a rejected record): it writes the settlement at
`currentIndex` and loops back to the check. -/
inductive PLStep (α ε : Type) (outcomes : Nat → PSettled α ε) :
    PLState α ε → PLState α ε → Prop
  | claim (s : PLState α ε) (w : Nat)
      (hw : s.workers[w]? = some WStatus.idle)
      (hidx : s.nextIdx < s.results.length) :
      PLStep α ε outcomes s
        { nextIdx := s.nextIdx + 1
          results := s.results
          workers := s.workers.set w (WStatus.awaiting s.nextIdx) }
  | retire (s : PLState α ε) (w : Nat)
      (hw : s.workers[w]? = some WStatus.idle)
      (hidx : ¬ s.nextIdx < s.results.length) :
      PLStep α ε outcomes s
        { nextIdx := s.nextIdx
          results := s.results
          workers := s.workers.set w WStatus.done }
  | settle (s : PLState α ε) (w i : Nat)
      (hw : s.workers[w]? = some (WStatus.awaiting i)) :
      PLStep α ε outcomes s
        { nextIdx := s.nextIdx
          results := s.results.set i (some (outcomes i))
          workers := s.workers.set w WStatus.idle }

/-- Execution invariant of `parallelLimit`: the array lengths are fixed, the
counter never passes the task count, a filled slot holds the true settlement
of its task, every claimed index is either settled in the array or held by
an awaiting worker, awaited indices were claimed, and a returned worker
certifies the counter has exhausted the tasks. -/
def PLInv (α ε : Type) (outcomes : Nat → PSettled α ε) (cap : Int) (n : Nat)
    (s : PLState α ε) : Prop :=
  s.results.length = n ∧
  s.workers.length = (min cap (n : Int)).toNat ∧
  s.nextIdx ≤ n ∧
  (∀ i : Nat, ∀ r : PSettled α ε, s.results[i]? = some (some r) → r = outcomes i) ∧
  (∀ i : Nat, i < s.nextIdx →
    s.results[i]? = some (some (outcomes i)) ∨
      ∃ w : Nat, s.workers[w]? = some (WStatus.awaiting i)) ∧
  (∀ w i : Nat, s.workers[w]? = some (WStatus.awaiting i) → i < s.nextIdx) ∧
  (WStatus.done ∈ s.workers → n ≤ s.nextIdx)

/-- C10 witness settlements: task 0 fulfils with 7, task 1 rejects. -/
def outcomesW : Nat → PSettled Nat String :=
  fun i => if i = 0 then PSettled.fulfilled 7 else PSettled.rejected "boom"

/-- C10 witness terminal state: both slots settled, the lone worker returned. -/
def sW : PLState Nat String :=
  { nextIdx := 2
    results := [some (PSettled.fulfilled 7), some (PSettled.rejected "boom")]
    workers := [WStatus.done] }

end Veilcams

namespace Veilcams

theorem one_le_max_len {s t : String} (h : s ≠ t) : 1 ≤ max s.length t.length := by
  by_contra hc
  push_neg at hc
  have hs : s.length = 0 := by omega
  have ht : t.length = 0 := by omega
  cases s with
  | mk ds =>
    cases t with
    | mk dt =>
      simp only [String.length] at hs ht
      have : ds = [] := List.length_eq_zero.mp hs
      have : dt = [] := List.length_eq_zero.mp ht
      simp_all

theorem isDifferent_iff_amended (b a : Resp) :
    isAuthenticatedResponseDifferent b a = true ↔ amendedC1Case b a := by
  unfold isAuthenticatedResponseDifferent amendedC1Case
  by_cases h1 : (b.status = 401 ∨ b.status = 403) ∧ (200 ≤ a.status ∧ a.status < 400)
  · rw [if_pos h1]
    exact iff_of_true rfl (Or.inl ⟨h1.1, h1.2⟩)
  rw [if_neg h1]
  by_cases h2 : b.status = -1 ∧ (200 ≤ a.status ∧ a.status < 400)
  · rw [if_pos h2]
    exact iff_of_true rfl (Or.inr (Or.inl ⟨h2.1, h2.2⟩))
  rw [if_neg h2]
  by_cases h3 : b.status = a.status
  · rw [if_pos h3]
    by_cases h4 : b.body = a.body
    · rw [if_pos h4]
      refine iff_of_false (by simp) ?_
      rintro (d | d | d | d | d)
      · exact h1 ⟨d.1, d.2.1, d.2.2⟩
      · exact h2 ⟨d.1, d.2.1, d.2.2⟩
      · exact d.2.1 h4
      · rw [h4] at d
        rw [d.2.2.2] at d
        exact absurd d.2.2.1 (by simp)
      · omega
    rw [if_neg h4]
    have hm : 1 ≤ max b.body.length a.body.length := one_le_max_len h4
    have hmm : max (max b.body.length a.body.length) 1 = max b.body.length a.body.length :=
      Nat.max_eq_left hm
    rw [hmm]
    by_cases h5 : bodySizeDiff b.body a.body * 10 < max b.body.length a.body.length
    · rw [if_pos h5]
      by_cases h6 : (authIndicatorsTest a.body && !authIndicatorsTest b.body) = true
      · rw [if_pos h6]
        simp only [Bool.and_eq_true, Bool.not_eq_true'] at h6
        exact iff_of_true rfl (Or.inr (Or.inr (Or.inr (Or.inl ⟨h3, h5, h6.1, h6.2⟩))))
      · rw [if_neg h6]
        refine iff_of_false (by simp) ?_
        rintro (d | d | d | d | d)
        · exact h1 ⟨d.1, d.2.1, d.2.2⟩
        · exact h2 ⟨d.1, d.2.1, d.2.2⟩
        · omega
        · simp only [Bool.and_eq_true, Bool.not_eq_true'] at h6
          exact h6 ⟨d.2.2.1, d.2.2.2⟩
        · omega
    · rw [if_neg h5]
      refine iff_of_true rfl (Or.inr (Or.inr (Or.inl ⟨h3, h4, ?_⟩)))
      omega
  rw [if_neg h3]
  by_cases h7 : (200 ≤ a.status ∧ a.status < 400) ∧ 400 ≤ b.status
  · rw [if_pos h7]
    exact iff_of_true rfl (Or.inr (Or.inr (Or.inr (Or.inr h7))))
  · rw [if_neg h7]
    refine iff_of_false (by simp) ?_
    rintro (d | d | d | d | d)
    · exact h1 ⟨d.1, d.2.1, d.2.2⟩
    · exact h2 ⟨d.1, d.2.1, d.2.2⟩
    · exact h3 d.1
    · exact h3 d.1
    · exact h7 d

theorem lookupA_getBaseline_preserved (env : String → Option HttpAns)
    (cache : List (String × Resp)) (url u : String) (hne : url ≠ u) :
    lookupA (getBaseline env cache url).2.1 u = lookupA cache u := by
  unfold getBaseline
  rcases hl : lookupA cache url with _ | v
  · rcases he : env url with _ | resp
    · simp [lookupA, hne]
    · simp [lookupA, hne]
  · rfl

theorem lookupA_getBaseline_self (env : String → Option HttpAns)
    (cache : List (String × Resp)) (url : String) :
    (lookupA (getBaseline env cache url).2.1 url).isSome := by
  unfold getBaseline
  rcases hl : lookupA cache url with _ | v
  · rcases he : env url with _ | resp <;> simp [lookupA]
  · simp [hl]

theorem getBaseline_cached_step (env : String → Option HttpAns)
    (cache : List (String × Resp)) (url : String)
    (h : (lookupA cache url).isSome) :
    (getBaseline env cache url).2.2 = 0 ∧ (getBaseline env cache url).2.1 = cache := by
  unfold getBaseline
  rcases hl : lookupA cache url with _ | v
  · rw [hl] at h; simp at h
  · exact ⟨rfl, rfl⟩

theorem baselineFetchCount_step (env : String → Option HttpAns)
    (cache : List (String × Resp)) (url u : String) (rest : List String) :
    baselineFetchCount env cache (url :: rest) u =
      (if url = u then (getBaseline env cache url).2.2 else 0) +
        baselineFetchCount env (getBaseline env cache url).2.1 rest u := rfl

theorem baselineFetchCount_cached (env : String → Option HttpAns)
    (cache : List (String × Resp)) (urls : List String) (u : String)
    (h : (lookupA cache u).isSome) :
    baselineFetchCount env cache urls u = 0 := by
  induction urls generalizing cache with
  | nil => rfl
  | cons url rest ih =>
    rw [baselineFetchCount_step]
    by_cases hu : url = u
    · subst hu
      obtain ⟨hz, hc⟩ := getBaseline_cached_step env cache url h
      rw [hz, hc, if_pos rfl, ih cache h]
    · rw [if_neg hu]
      have hk : (lookupA (getBaseline env cache url).2.1 u).isSome := by
        rw [lookupA_getBaseline_preserved env cache url u hu]; exact h
      rw [ih _ hk]

theorem baselineFetchCount_le_one (env : String → Option HttpAns)
    (cache : List (String × Resp)) (urls : List String) (u : String) :
    baselineFetchCount env cache urls u ≤ 1 := by
  induction urls generalizing cache with
  | nil => exact Nat.zero_le 1
  | cons url rest ih =>
    rw [baselineFetchCount_step]
    by_cases hu : url = u
    · subst hu
      rw [baselineFetchCount_cached env _ rest url (lookupA_getBaseline_self env cache url)]
      have : (getBaseline env cache url).2.2 ≤ 1 := by
        unfold getBaseline
        rcases hl : lookupA cache url with _ | v
        · rcases he : env url with _ | resp <;> simp
        · simp
      simpa [if_pos rfl] using this
    · rw [if_neg hu]
      simpa using ih (getBaseline env cache url).2.1

/-- C1, counterexample: with baseline `(200, "aaaaaaa")` and authed response
`(200, "signout")` the statuses agree, the size difference is below 10%, and
the authed body contains none of the claim's seven literal markers (in
particular not the hyphenated `sign-out`), so the claim's case analysis says
`false`; the source function returns `true`, because its regex alternative
`sign.?out` also matches `signout` with no separator. -/
theorem C1_counterexample :
    isAuthenticatedResponseDifferent ⟨200, "aaaaaaa"⟩ ⟨200, "signout"⟩ = true ∧
      ¬ specC1Case ⟨200, "aaaaaaa"⟩ ⟨200, "signout"⟩ := by
  constructor
  · decide
  · decide

/-- C1, amended: `isAuthenticatedResponseDifferent` returns `true` exactly in
the claimed five cases, with the marker predicate amended from the claim's
literal word list to the source regex, whose `sign.?out` alternative matches
`sign` + `out` with no separator or any single non-line-terminator character
between (all matching case-insensitive); and the unauthenticated baseline is
fetched over the network at most once per base URL, all later requests being
served from the `(status, body)` cache. -/
theorem C1_isDifferent_case_analysis :
    (∀ baseline authed : Resp,
        isAuthenticatedResponseDifferent baseline authed = true ↔
          amendedC1Case baseline authed) ∧
    (∀ (env : String → Option HttpAns) (urls : List String) (u : String),
        baselineFetchCount env [] urls u ≤ 1) :=
  ⟨isDifferent_iff_amended, fun env urls u => baselineFetchCount_le_one env [] urls u⟩

/-- C5: `computeDigestAuth` agrees byte-for-byte with the spec's RFC 2617
reference computation, for every MD5 oracle, every parameter tuple, and the
same supplied cnonce (nonempty, as produced by the random hex generator; an
explicit `nc` is likewise a nonempty counter string). -/
theorem C5_computeDigestAuth_rfc2617
    (md5 : String → String) (rand username password realm nonce method uri cnonce : String)
    (qop algorithm nc : Option String)
    (hc : cnonce ≠ "") (hnc : ∀ s, nc = some s → s ≠ "") :
    computeDigestAuth md5 rand
        { username := username, password := password, method := method, uri := uri,
          realm := realm, nonce := nonce, qop := qop, nc := nc,
          cnonce := some cnonce, algorithm := algorithm } =
      rfc2617ReferenceHeader md5 username password realm nonce method uri qop algorithm nc cnonce := by
  have hcn : orDefault (some cnonce) rand = cnonce := by
    simp [orDefault, hc]
  have hncv : orDefault nc "00000001" = nc.getD "00000001" := by
    cases nc with
    | none => rfl
    | some s =>
      have : s ≠ "" := hnc s rfl
      simp [orDefault, this]
  have hqop : orDefault qop "" = qop.getD "" := by
    cases qop with
    | none => rfl
    | some s =>
      by_cases hs : s = "" <;> simp [orDefault, hs]
  unfold computeDigestAuth rfc2617ReferenceHeader
  rw [hcn, hncv, hqop]
  cases algorithm with
  | none => rfl
  | some a => simp only []

/-- C5 witness: an md5-sess, qop=auth instance with the identity in place of
MD5 evaluates equally through both definitions. -/
theorem C5_witness :
    ("0a1b2c3d" : String) ≠ "" ∧
      computeDigestAuth (fun s => s) "rr"
          { username := "admin", password := "12345", method := "GET", uri := "/",
            realm := "cam", nonce := "n1", qop := some "auth", nc := Option.none,
            cnonce := some "0a1b2c3d", algorithm := some "MD5-sess" } =
        rfc2617ReferenceHeader (fun s => s) "admin" "12345" "cam" "n1" "GET" "/"
          (some "auth") (some "MD5-sess") Option.none "0a1b2c3d" :=
  ⟨by decide,
    C5_computeDigestAuth_rfc2617 (fun s => s) "rr" "admin" "12345" "cam" "n1" "GET" "/"
      "0a1b2c3d" (some "auth") (some "MD5-sess") Option.none (by decide)
      (fun s hs => nomatch hs)⟩

theorem foldl_addCred_eq (l : List Credential) (seen : List String) (acc : List Credential) :
    (l.foldl addCred (seen, acc)).2 = acc ++ dedupByKeySeen seen l := by
  induction l generalizing seen acc with
  | nil => simp [dedupByKeySeen]
  | cons c rest ih =>
    simp only [List.foldl_cons, dedupByKeySeen, addCred]
    by_cases h : seen.contains (credKey c)
    · rw [if_pos h, if_pos h]
      exact ih seen acc
    · rw [if_neg h, if_neg h]
      rw [ih (credKey c :: seen) (acc ++ [c])]
      simp

theorem dedupByKeySeen_spec (l : List Credential) (seen : List String) :
    List.Pairwise (fun a b => credKey a ≠ credKey b) (dedupByKeySeen seen l) ∧
      ∀ c ∈ dedupByKeySeen seen l, ¬ credKey c ∈ seen := by
  induction l generalizing seen with
  | nil => exact ⟨List.Pairwise.nil, by simp [dedupByKeySeen]⟩
  | cons c rest ih =>
    simp only [dedupByKeySeen]
    by_cases h : seen.contains (credKey c)
    · rw [if_pos h]
      exact ih seen
    · rw [if_neg h]
      obtain ⟨hp, hm⟩ := ih (credKey c :: seen)
      refine ⟨List.Pairwise.cons ?_ hp, ?_⟩
      · intro b hb
        have hb2 := hm b hb
        simp only [List.mem_cons, not_or] at hb2
        exact fun he => hb2.1 he.symm
      · intro d hd
        rcases List.mem_cons.mp hd with rfl | hd'
        · have : seen.contains (credKey d) = false := by
            exact Bool.not_eq_true _ ▸ (by simpa using h)
          simpa using this
        · have hb2 := hm d hd'
          simp only [List.mem_cons, not_or] at hb2
          exact hb2.2

/-- C8: with defaults enabled, `buildCredentialList` is the keep-first
deduplication (key `username:password`) of vendor defaults, then generic
defaults (added separately only for a known vendor — for `unknown` the
vendor list already is the generic list), then the custom credentials; the
result has pairwise distinct keys. -/
theorem C8_buildCredentialList_ordered_dedup
    (t : FingerprintResult) (cfg : VeilcamsConfig)
    (h : cfg.credentials.use_defaults = true) :
    buildCredentialList t cfg =
      dedupByKeySeen []
        (DEFAULT_CREDENTIALS t.vendor ++
          (if t.vendor = CameraVendor.unknown then []
           else DEFAULT_CREDENTIALS CameraVendor.unknown) ++
          cfg.credentials.custom) ∧
    List.Pairwise (fun a b => credKey a ≠ credKey b) (buildCredentialList t cfg) := by
  have hmain : buildCredentialList t cfg =
      dedupByKeySeen []
        (DEFAULT_CREDENTIALS t.vendor ++
          (if t.vendor = CameraVendor.unknown then []
           else DEFAULT_CREDENTIALS CameraVendor.unknown) ++
          cfg.credentials.custom) := by
    unfold buildCredentialList
    have hl1 : (if cfg.credentials.use_defaults = true then DEFAULT_CREDENTIALS t.vendor
        else []) = DEFAULT_CREDENTIALS t.vendor := if_pos h
    have hl2 : (if cfg.credentials.use_defaults = true ∧ t.vendor ≠ CameraVendor.unknown
          then DEFAULT_CREDENTIALS CameraVendor.unknown else []) =
        (if t.vendor = CameraVendor.unknown then []
         else DEFAULT_CREDENTIALS CameraVendor.unknown) := by
      by_cases hv : t.vendor = CameraVendor.unknown
      · rw [if_neg (by simp [hv]), if_pos hv]
      · rw [if_pos ⟨h, hv⟩, if_neg hv]
    simp only [hl1, hl2]
    rw [foldl_addCred_eq]
    simp
  refine ⟨hmain, ?_⟩
  rw [hmain]
  exact (dedupByKeySeen_spec _ []).1

theorem isDifferent_refl (s : Int) (b : String) :
    isAuthenticatedResponseDifferent ⟨s, b⟩ ⟨s, b⟩ = false := by
  cases h : isAuthenticatedResponseDifferent ⟨s, b⟩ ⟨s, b⟩
  · rfl
  · exfalso
    rcases (isDifferent_iff_amended ⟨s, b⟩ ⟨s, b⟩).mp h with d | d | d | d | d
    · rcases d with ⟨h1 | h1, h2, h3⟩ <;> simp at h1 h2 h3 <;> omega
    · rcases d with ⟨h1, h2, h3⟩
      simp at h1 h2 h3
      omega
    · exact d.2.1 rfl
    · have h1 := d.2.2.1
      have h2 := d.2.2.2
      simp at h1 h2
      rw [h1] at h2
      exact Bool.true_eq_false.mp h2
    · rcases d with ⟨⟨h1, h2⟩, h3⟩
      simp at h1 h2 h3
      omega

theorem getBaseline_identical (env : HttpEnv) (base B : String)
    (cache : List (String × Resp))
    (hplain : ∃ a, env (HttpReq.getPlain base) = some a ∧ a.status = 200 ∧ a.body = B)
    (hcache : ∀ r, lookupA cache base = some r → r = ⟨200, B⟩) :
    (getBaseline (fun url => env (HttpReq.getPlain url)) cache base).1 = ⟨200, B⟩ ∧
      ∀ r, lookupA (getBaseline (fun url => env (HttpReq.getPlain url)) cache base).2.1 base =
          some r → r = ⟨200, B⟩ := by
  obtain ⟨a, ha, has, hab⟩ := hplain
  unfold getBaseline
  rcases hl : lookupA cache base with _ | r
  · simp only [ha]
    constructor
    · rw [has, hab]
    · intro r hr
      simp only [lookupA, if_pos rfl] at hr
      rw [← Option.some_inj.mp hr, has, hab]
  · exact ⟨hcache r hl, hcache⟩

theorem testHttpAuthP2_cache (env : HttpEnv) (pwa : String → WwwAuthParams)
    (md5 : String → String) (rand : String) (cache : List (String × Resp))
    (t : FingerprintResult) (cred : Credential) :
    (testHttpAuthP2 env pwa md5 rand cache t cred).2 =
      (getBaseline (fun url => env (HttpReq.getPlain url)) cache (baseUrlOf t)).2.1 := by
  simp only [testHttpAuthP2]
  split
  · split <;> rfl
  · split
    · split
      · rfl
      · split <;> rfl
    · split
      · rfl
      · split
        · split <;> rfl
        · split <;> rfl

theorem testHttpAuthP2_identical_false (env : HttpEnv) (pwa : String → WwwAuthParams)
    (md5 : String → String) (rand : String) (cache : List (String × Resp))
    (t : FingerprintResult) (cred : Credential) (B : String)
    (hE : IdenticalRootEnv env (baseUrlOf t) B)
    (hcache : ∀ r, lookupA cache (baseUrlOf t) = some r → r = ⟨200, B⟩)
    (hform : t.authType ≠ AuthType.form) (hnone : t.authType ≠ AuthType.none) :
    (testHttpAuthP2 env pwa md5 rand cache t cred).1.success = false := by
  obtain ⟨hb, _⟩ := getBaseline_identical env (baseUrlOf t) B cache hE.plain hcache
  rcases ht : t.authType
  case form => exact absurd ht hform
  case none => exact absurd ht hnone
  case basic =>
    obtain ⟨a, ha, has, hab⟩ := hE.basic cred
    simp [testHttpAuthP2, ht, ha, has, hab, hb, isDifferent_refl]
  case unknown =>
    obtain ⟨a, ha, has, hab⟩ := hE.basic cred
    simp [testHttpAuthP2, ht, ha, has, hab, hb, isDifferent_refl]
  case digest =>
    obtain ⟨c, hc, hcs, hcb⟩ := hE.plain
    obtain ⟨a, ha, has, hab⟩ := hE.header
      (computeDigestAuth md5 rand
        { username := cred.username, password := cred.password, method := "GET",
          uri := "/", realm := orDefault (pwa c.www).realm "",
          nonce := orDefault (pwa c.www).nonce "",
          qop := (pwa c.www).qop, algorithm := (pwa c.www).algorithm })
    simp [testHttpAuthP2, ht, hc, ha, has, hab, hcs, hcb, isDifferent_refl]
  case bearer =>
    obtain ⟨a, ha, has, hab⟩ := hE.basic cred
    simp [testHttpAuthP2, ht, ha, has, hab, hb, isDifferent_refl]

theorem testRtspAuthP2_protocol (env : RtspEnv) (cache : List (String × Bool))
    (t : FingerprintResult) (cred : Credential) :
    (testRtspAuthP2 env cache t cred).1.protocol = "rtsp" := by
  simp only [testRtspAuthP2]
  split
  · rfl
  · split <;> rfl

theorem testHostLoop_http_false (env : HttpEnv) (renv : RtspEnv)
    (pwa : String → WwwAuthParams) (md5 : String → String) (rand : String)
    (t : FingerprintResult) (cfg : VeilcamsConfig) (B : String)
    (hE : IdenticalRootEnv env (baseUrlOf t) B)
    (hform : t.authType ≠ AuthType.form) (hnone : t.authType ≠ AuthType.none)
    (creds : List Credential) (attempts : Nat) (st : TesterState)
    (hcache : ∀ r, lookupA st.baselineCache (baseUrlOf t) = some r → r = ⟨200, B⟩) :
    ∀ r ∈ (testHostLoop env renv pwa md5 rand t cfg creds attempts st).1,
      (r.protocol = "http" ∨ r.protocol = "https") → r.success = false := by
  induction creds generalizing attempts st with
  | nil =>
    intro r hr
    simp [testHostLoop] at hr
  | cons c rest ih =>
    intro r hr hp
    have hsucc : (testHttpAuthP2 env pwa md5 rand st.baselineCache t c).1.success = false :=
      testHttpAuthP2_identical_false env pwa md5 rand st.baselineCache t c B hE hcache
        hform hnone
    have hcache2 : ∀ r2,
        lookupA (testHttpAuthP2 env pwa md5 rand st.baselineCache t c).2 (baseUrlOf t) =
          some r2 → r2 = ⟨200, B⟩ := by
      rw [testHttpAuthP2_cache]
      exact (getBaseline_identical env (baseUrlOf t) B st.baselineCache hE.plain hcache).2
    simp only [testHostLoop] at hr
    split at hr
    · simp at hr
    · split at hr
      · -- HTTP is tested for this credential
        rw [hsucc] at hr
        simp only [Bool.false_eq_true, if_false] at hr
        split at hr
        · -- RTSP also tested
          split at hr
          · -- RTSP success: list is the two attempts
            simp only [List.mem_cons, List.not_mem_nil, or_false] at hr
            rcases hr with rfl | rfl
            · exact hsucc
            · exfalso
              have := testRtspAuthP2_protocol renv
                { st with baselineCache :=
                    (testHttpAuthP2 env pwa md5 rand st.baselineCache t c).2 }.rtspCache t c
              rcases hp with hp | hp <;> rw [hp] at this <;> simp at this
          · simp only [List.mem_cons] at hr
            rcases hr with rfl | rfl | hr
            · exact hsucc
            · exfalso
              have := testRtspAuthP2_protocol renv
                { st with baselineCache :=
                    (testHttpAuthP2 env pwa md5 rand st.baselineCache t c).2 }.rtspCache t c
              rcases hp with hp | hp <;> rw [hp] at this <;> simp at this
            · exact ih _ _ (by simpa using hcache2) r hr hp
        · -- only HTTP tested
          simp only [List.mem_cons] at hr
          rcases hr with rfl | hr
          · exact hsucc
          · exact ih _ _ (by simpa using hcache2) r hr hp
      · split at hr
        · -- only RTSP tested
          split at hr
          · simp only [List.mem_cons, List.not_mem_nil, or_false] at hr
            subst hr
            exfalso
            have := testRtspAuthP2_protocol renv st.rtspCache t c
            rcases hp with hp | hp <;> rw [hp] at this <;> simp at this
          · simp only [List.mem_cons] at hr
            rcases hr with rfl | hr
            · exfalso
              have := testRtspAuthP2_protocol renv st.rtspCache t c
              rcases hp with hp | hp <;> rw [hp] at this <;> simp at this
            · exact ih _ _ (by simpa using hcache) r hr hp
        · -- neither protocol present
          exact ih _ _ hcache r hr hp

/-- C2 counterexample: a host serving the identical 200 page (without any
post-login marker) to every root request, whose Hikvision `userCheck` login
API nevertheless answers an explicit success: the per-credential
`testHttpAuth` of the baseline-differential tester records `success = true`
for that HTTP attempt, refuting the claim as stated — the `authType = none`
flow validates against vendor login endpoints, which the claim's hypothesis
does not constrain. -/
theorem C2_counterexample :
    envC2 (HttpReq.getPlain (baseUrlOf targetC2)) = some ⟨200, bodyC2, ""⟩ ∧
    envC2 (HttpReq.getBasic (baseUrlOf targetC2) ⟨"admin", "12345"⟩) =
      some ⟨200, bodyC2, ""⟩ ∧
    specC1MarkersTest bodyC2 = false ∧ authIndicatorsTest bodyC2 = false ∧
    (testHttpAuthP2 envC2 pwaTrivial (fun s => s) "r" [] targetC2
        ⟨"admin", "12345"⟩).1.success = true ∧
    (testHttpAuthP2 envC2 pwaTrivial (fun s => s) "r" [] targetC2
        ⟨"admin", "12345"⟩).1.protocol = "http" := by
  exact ⟨rfl, rfl, by decide, by decide, by decide, by decide⟩

/-- C2 (amended): for every host whose root URL returns 200 with one and the
same body regardless of credentials, and every target record routed through
the root-URL flows (authType not `form` and not `none`, whose attempts go to
login endpoints the claim's hypothesis leaves unconstrained), the
baseline-differential credential tester records `success = false` on every
HTTP attempt, no matter how many credentials are tried. -/
theorem C2_identical_baseline_no_success (env : HttpEnv) (renv : RtspEnv)
    (pwa : String → WwwAuthParams) (md5 : String → String) (rand : String)
    (t : FingerprintResult) (cfg : VeilcamsConfig) (st : TesterState) (B : String)
    (hE : IdenticalRootEnv env (baseUrlOf t) B)
    (hmark : authIndicatorsTest B = false)
    (hcache : ∀ r, lookupA st.baselineCache (baseUrlOf t) = some r → r = ⟨200, B⟩)
    (hform : t.authType ≠ AuthType.form) (hnone : t.authType ≠ AuthType.none) :
    ∀ r ∈ (testHost env renv pwa md5 rand t cfg st).1,
      (r.protocol = "http" ∨ r.protocol = "https") → r.success = false :=
  testHostLoop_http_false env renv pwa md5 rand t cfg B hE hform hnone
    (buildCredentialList t cfg) 0 st hcache

/-- C2 witness: the identical-200 host with a Basic-auth target and one
custom credential yields only failed attempts. -/
theorem C2_witness :
    ((testHost envC2w renvTrivial pwaTrivial (fun s => s) "r" targetC2w cfgOneAttempt
        ⟨[], []⟩).1.all (fun r => r.success == false)) = true := by
  have h := C2_identical_baseline_no_success envC2w renvTrivial pwaTrivial (fun s => s) "r"
    targetC2w cfgOneAttempt ⟨[], []⟩ "landing page"
    ⟨⟨_, rfl, rfl, rfl⟩, fun _ => ⟨_, rfl, rfl, rfl⟩, fun _ => ⟨_, rfl, rfl, rfl⟩⟩
    (by decide) (fun r hr => nomatch hr) (by decide) (by decide)
  have hprot : ((testHost envC2w renvTrivial pwaTrivial (fun s => s) "r" targetC2w
      cfgOneAttempt ⟨[], []⟩).1.all (fun x => x.protocol == "http")) = true := by decide
  rw [List.all_eq_true] at hprot ⊢
  intro r hr
  have hp := hprot r hr
  have := h r hr (Or.inl (by simpa using hp))
  simp [this]

theorem testRtspAuthP2_unauth_open (env : RtspEnv) (cache : List (String × Bool))
    (t : FingerprintResult) (cred : Credential)
    (hopen : env t.ip (rtspPortOf t) (rtspTestPathOf t) Option.none = some 200)
    (hcache : ∀ b, lookupA cache (rtspKeyOf t.ip (rtspPortOf t) (rtspTestPathOf t)) =
        some b → b = true) :
    (testRtspAuthP2 env cache t cred).1.success = false ∧
      (testRtspAuthP2 env cache t cred).1.evidence = unauthEvidence (rtspTestPathOf t) := by
  have hu : (isRtspUnauthenticated env cache t.ip (rtspPortOf t) (rtspTestPathOf t)).1 =
      true := by
    unfold isRtspUnauthenticated
    rcases hl : lookupA cache (rtspKeyOf t.ip (rtspPortOf t) (rtspTestPathOf t)) with _ | b
    · simp [hopen]
    · simp [hcache b hl]
  simp [testRtspAuthP2, hu]

theorem testRtspAuthP2_success_implies (env : RtspEnv) (cache : List (String × Bool))
    (t : FingerprintResult) (cred : Credential)
    (hcache : ∀ b, lookupA cache (rtspKeyOf t.ip (rtspPortOf t) (rtspTestPathOf t)) =
        some b → (b = true ↔
          env t.ip (rtspPortOf t) (rtspTestPathOf t) Option.none = some 200))
    (hs : (testRtspAuthP2 env cache t cred).1.success = true) :
    env t.ip (rtspPortOf t) (rtspTestPathOf t) Option.none ≠ some 200 ∧
      env t.ip (rtspPortOf t) (rtspTestPathOf t) (some cred) = some 200 := by
  by_cases hu : (isRtspUnauthenticated env cache t.ip (rtspPortOf t) (rtspTestPathOf t)).1 =
      true
  · exfalso
    simp [testRtspAuthP2, hu] at hs
  · have hu2 : (isRtspUnauthenticated env cache t.ip (rtspPortOf t)
        (rtspTestPathOf t)).1 = false := by
      simpa using hu
    have hne : env t.ip (rtspPortOf t) (rtspTestPathOf t) Option.none ≠ some 200 := by
      unfold isRtspUnauthenticated at hu2
      rcases hl : lookupA cache (rtspKeyOf t.ip (rtspPortOf t) (rtspTestPathOf t)) with _ | b
      · rw [hl] at hu2
        rcases he : env t.ip (rtspPortOf t) (rtspTestPathOf t) Option.none with _ | code
        · exact fun hcon => nomatch hcon
        · rw [he] at hu2
          simp at hu2
          simp [hu2]
      · rw [hl] at hu2
        simp at hu2
        intro hcon
        exact absurd ((hcache b hl).mpr hcon) (by simp [hu2])
    refine ⟨hne, ?_⟩
    simp only [testRtspAuthP2, hu2] at hs
    simp only [Bool.false_eq_true, if_false] at hs
    rcases he : env t.ip (rtspPortOf t) (rtspTestPathOf t) (some cred) with _ | code
    · rw [he] at hs
      simp [rtspResultBase] at hs
    · rw [he] at hs
      simp at hs
      rw [hs]

theorem lookupA_isRtspUnauth_preserved (env : RtspEnv) (cache : List (String × Bool))
    (ip : String) (port : Nat) (path : String) (k : String)
    (hne : rtspKeyOf ip port path ≠ k) :
    lookupA (isRtspUnauthenticated env cache ip port path).2.1 k = lookupA cache k := by
  unfold isRtspUnauthenticated
  rcases hl : lookupA cache (rtspKeyOf ip port path) with _ | b
  · rcases he : env ip port path Option.none with _ | code <;> simp [lookupA, hne]
  · rfl

theorem lookupA_isRtspUnauth_self (env : RtspEnv) (cache : List (String × Bool))
    (ip : String) (port : Nat) (path : String) :
    (lookupA (isRtspUnauthenticated env cache ip port path).2.1
        (rtspKeyOf ip port path)).isSome := by
  unfold isRtspUnauthenticated
  rcases hl : lookupA cache (rtspKeyOf ip port path) with _ | b
  · rcases he : env ip port path Option.none with _ | code <;> simp [lookupA]
  · simp [hl]

theorem isRtspUnauth_cached_step (env : RtspEnv) (cache : List (String × Bool))
    (ip : String) (port : Nat) (path : String)
    (h : (lookupA cache (rtspKeyOf ip port path)).isSome) :
    (isRtspUnauthenticated env cache ip port path).2.2 = 0 ∧
      (isRtspUnauthenticated env cache ip port path).2.1 = cache := by
  unfold isRtspUnauthenticated
  rcases hl : lookupA cache (rtspKeyOf ip port path) with _ | b
  · rw [hl] at h; simp at h
  · exact ⟨rfl, rfl⟩

theorem isRtspUnauth_probe_le_one (env : RtspEnv) (cache : List (String × Bool))
    (ip : String) (port : Nat) (path : String) :
    (isRtspUnauthenticated env cache ip port path).2.2 ≤ 1 := by
  unfold isRtspUnauthenticated
  rcases hl : lookupA cache (rtspKeyOf ip port path) with _ | b
  · rcases he : env ip port path Option.none with _ | code <;> simp
  · simp

theorem rtspProbeCount_step (env : RtspEnv) (cache : List (String × Bool))
    (tc : FingerprintResult × Credential) (rest : List (FingerprintResult × Credential))
    (k : String) :
    rtspUnauthProbeCount env cache (tc :: rest) k =
      (if rtspKeyOf tc.1.ip (rtspPortOf tc.1) (rtspTestPathOf tc.1) = k then
        (isRtspUnauthenticated env cache tc.1.ip (rtspPortOf tc.1) (rtspTestPathOf tc.1)).2.2
       else 0) +
        rtspUnauthProbeCount env
          (isRtspUnauthenticated env cache tc.1.ip (rtspPortOf tc.1)
            (rtspTestPathOf tc.1)).2.1 rest k := rfl

theorem rtspProbeCount_cached (env : RtspEnv) (cache : List (String × Bool))
    (calls : List (FingerprintResult × Credential)) (k : String)
    (h : (lookupA cache k).isSome) :
    rtspUnauthProbeCount env cache calls k = 0 := by
  induction calls generalizing cache with
  | nil => rfl
  | cons tc rest ih =>
    rw [rtspProbeCount_step]
    by_cases hk : rtspKeyOf tc.1.ip (rtspPortOf tc.1) (rtspTestPathOf tc.1) = k
    · obtain ⟨hz, hc⟩ := isRtspUnauth_cached_step env cache tc.1.ip (rtspPortOf tc.1)
        (rtspTestPathOf tc.1) (by rw [hk]; exact h)
      rw [if_pos hk, hz, hc, ih cache h]
    · rw [if_neg hk]
      have hkeep : (lookupA (isRtspUnauthenticated env cache tc.1.ip (rtspPortOf tc.1)
          (rtspTestPathOf tc.1)).2.1 k).isSome := by
        rw [lookupA_isRtspUnauth_preserved env cache tc.1.ip (rtspPortOf tc.1)
          (rtspTestPathOf tc.1) k hk]
        exact h
      rw [ih _ hkeep]

theorem rtspProbeCount_le_one (env : RtspEnv) (cache : List (String × Bool))
    (calls : List (FingerprintResult × Credential)) (k : String) :
    rtspUnauthProbeCount env cache calls k ≤ 1 := by
  induction calls generalizing cache with
  | nil => exact Nat.zero_le 1
  | cons tc rest ih =>
    rw [rtspProbeCount_step]
    by_cases hk : rtspKeyOf tc.1.ip (rtspPortOf tc.1) (rtspTestPathOf tc.1) = k
    · rw [if_pos hk]
      have hs : (lookupA (isRtspUnauthenticated env cache tc.1.ip (rtspPortOf tc.1)
          (rtspTestPathOf tc.1)).2.1 k).isSome := by
        rw [← hk]
        exact lookupA_isRtspUnauth_self env cache tc.1.ip (rtspPortOf tc.1)
          (rtspTestPathOf tc.1)
      rw [rtspProbeCount_cached env _ rest k hs]
      simpa using isRtspUnauth_probe_le_one env cache tc.1.ip (rtspPortOf tc.1)
        (rtspTestPathOf tc.1)
    · rw [if_neg hk]
      simpa using ih (isRtspUnauthenticated env cache tc.1.ip (rtspPortOf tc.1)
        (rtspTestPathOf tc.1)).2.1

/-- C3: (i) when the unauthenticated DESCRIBE on the tested path answers
200, every credential tested by `testRtspAuth` yields `success = false` with
the evidence string naming unauthenticated access as the real finding;
(ii) a credentialed success is only ever reported when the unauthenticated
DESCRIBE was denied and the credentialed one answered 200; (iii) across any
sequence of tests starting from an empty cache, at most one unauthenticated
DESCRIBE is issued per `(ip, port, path)` cache key. -/
theorem C3_rtsp_unauth_suppression :
    (∀ (env : RtspEnv) (cache : List (String × Bool)) (t : FingerprintResult)
        (cred : Credential),
        env t.ip (rtspPortOf t) (rtspTestPathOf t) Option.none = some 200 →
        (∀ b, lookupA cache (rtspKeyOf t.ip (rtspPortOf t) (rtspTestPathOf t)) =
            some b → b = true) →
        (testRtspAuthP2 env cache t cred).1.success = false ∧
          (testRtspAuthP2 env cache t cred).1.evidence =
            unauthEvidence (rtspTestPathOf t)) ∧
    (∀ (env : RtspEnv) (cache : List (String × Bool)) (t : FingerprintResult)
        (cred : Credential),
        (∀ b, lookupA cache (rtspKeyOf t.ip (rtspPortOf t) (rtspTestPathOf t)) =
            some b → (b = true ↔
              env t.ip (rtspPortOf t) (rtspTestPathOf t) Option.none = some 200)) →
        (testRtspAuthP2 env cache t cred).1.success = true →
        env t.ip (rtspPortOf t) (rtspTestPathOf t) Option.none ≠ some 200 ∧
          env t.ip (rtspPortOf t) (rtspTestPathOf t) (some cred) = some 200) ∧
    (∀ (env : RtspEnv) (calls : List (FingerprintResult × Credential)) (k : String),
        rtspUnauthProbeCount env [] calls k ≤ 1) :=
  ⟨fun env cache t cred hopen hcache =>
      testRtspAuthP2_unauth_open env cache t cred hopen hcache,
   fun env cache t cred hcache hs =>
      testRtspAuthP2_success_implies env cache t cred hcache hs,
   fun env calls k => rtspProbeCount_le_one env [] calls k⟩

/-- C3 witness: an open stream on `192.0.2.12:554` forces a failed attempt
whose evidence names the unauthenticated exposure. -/
theorem C3_witness :
    (testRtspAuthP2 envC3 [] targetC3 ⟨"admin", "admin"⟩).1.success = false ∧
      (testRtspAuthP2 envC3 [] targetC3 ⟨"admin", "admin"⟩).1.evidence =
        unauthEvidence (rtspTestPathOf targetC3) :=
  C3_rtsp_unauth_suppression.1 envC3 [] targetC3 ⟨"admin", "admin"⟩ rfl
    (fun b hb => nomatch hb)

/-- C4 counterexample: on a host that serves the same 200 page with and
without credentials, the module-path `testHttpAuth` reports a Basic-auth
success while the baseline-differential variant reports failure for the same
target, credential, and responses — the two implementations are not
observationally equivalent. -/
theorem C4_counterexample :
    (testHttpAuthModule envC4 pwaTrivial (fun s => s) "r" targetC4
        ⟨"admin", "admin"⟩).success = true ∧
    (testHttpAuthP2 envC4 pwaTrivial (fun s => s) "r" [] targetC4
        ⟨"admin", "admin"⟩).1.success = false :=
  ⟨by decide, by decide⟩

/-- C4 (amended): the two variants are not equivalent; what holds is a
refinement in one direction on the branches that issue the same requests:
for `authType` basic, unknown or digest, and for RTSP tests, every success
reported by the baseline-differential variant is also reported by the
module-path variant on the same responses (the converse fails, as the
counterexample shows). -/
theorem C4_variant_refinement :
    (∀ (env : HttpEnv) (pwa : String → WwwAuthParams) (md5 : String → String)
        (rand : String) (cache : List (String × Resp)) (t : FingerprintResult)
        (cred : Credential),
        (t.authType = AuthType.basic ∨ t.authType = AuthType.unknown ∨
          t.authType = AuthType.digest) →
        (testHttpAuthP2 env pwa md5 rand cache t cred).1.success = true →
        (testHttpAuthModule env pwa md5 rand t cred).success = true) ∧
    (∀ (env : RtspEnv) (cache : List (String × Bool)) (t : FingerprintResult)
        (cred : Credential),
        (testRtspAuthP2 env cache t cred).1.success = true →
        (testRtspAuthModule env t cred).success = true) := by
  constructor
  · intro env pwa md5 rand cache t cred hty hs
    rcases hty with ht | ht | ht
    · rcases he : env (HttpReq.getBasic (baseUrlOf t) cred) with _ | resp
      · exfalso
        simp [testHttpAuthP2, ht, he, httpResultBase] at hs
      · simp [testHttpAuthP2, ht, he] at hs
        simp [testHttpAuthModule, ht, he]
        exact hs.1
    · rcases he : env (HttpReq.getBasic (baseUrlOf t) cred) with _ | resp
      · exfalso
        simp [testHttpAuthP2, ht, he, httpResultBase] at hs
      · simp [testHttpAuthP2, ht, he] at hs
        simp [testHttpAuthModule, ht, he]
        exact hs.1
    · rcases hch : env (HttpReq.getPlain (baseUrlOf t)) with _ | ch
      · exfalso
        simp [testHttpAuthP2, ht, hch, httpResultBase] at hs
      · rcases hha : env (HttpReq.getHeader (baseUrlOf t)
            (computeDigestAuth md5 rand
              { username := cred.username, password := cred.password, method := "GET",
                uri := "/", realm := orDefault (pwa ch.www).realm "",
                nonce := orDefault (pwa ch.www).nonce "",
                qop := (pwa ch.www).qop,
                algorithm := (pwa ch.www).algorithm })) with _ | resp
        · exfalso
          simp [testHttpAuthP2, ht, hch, hha, httpResultBase] at hs
        · simp [testHttpAuthP2, ht, hch, hha] at hs
          simp [testHttpAuthModule, ht, hch, hha]
          exact hs.1
  · intro env cache t cred hs
    by_cases hu : (isRtspUnauthenticated env cache t.ip (rtspPortOf t)
        (rtspTestPathOf t)).1 = true
    · exfalso
      simp [testRtspAuthP2, hu] at hs
    · have hu2 : (isRtspUnauthenticated env cache t.ip (rtspPortOf t)
          (rtspTestPathOf t)).1 = false := by simpa using hu
      simp only [testRtspAuthP2, hu2] at hs
      simp only [Bool.false_eq_true, if_false] at hs
      rcases he : env t.ip (rtspPortOf t) (rtspTestPathOf t) (some cred) with _ | code
      · rw [he] at hs
        simp [rtspResultBase] at hs
      · rw [he] at hs
        simp at hs
        simp [testRtspAuthModule, he, hs]

/-- C4 witness: on a 401-challenging host, the baseline-differential variant
reports a genuine Basic success and the refinement transports it to the
module-path variant. -/
theorem C4_witness :
    (testHttpAuthP2 envC4w pwaTrivial (fun s => s) "r" [] targetC4
        ⟨"admin", "admin"⟩).1.success = true ∧
    (testHttpAuthModule envC4w pwaTrivial (fun s => s) "r" targetC4
        ⟨"admin", "admin"⟩).success = true :=
  ⟨by decide,
    C4_variant_refinement.1 envC4w pwaTrivial (fun s => s) "r" [] targetC4
      ⟨"admin", "admin"⟩ (Or.inl rfl) (by decide)⟩

/-- C6: in the workflow's parallel testing phase the three branches settle
independently: a rejected branch yields its zeroed module result and is
recorded failed in the workflow state, a fulfilled branch's value passes
through and is recorded completed, each branch's result depends only on its
own settlement, control always reaches the reporting phase, and
exploitation runs iff the (possibly zeroed) CVE result reports at least one
vulnerability found. -/
theorem C6_parallel_branch_isolation
    (st0 : WorkflowState)
    (c : Settled CredentialModuleResult) (v : Settled CveModuleResult)
    (p : Settled ProtocolModuleResult) (e : Settled ExploitationModuleResult) :
    ((runTestingAndExploitationPhase st0 c v p e).credentialResult =
        match c with
        | Settled.fulfilled x => x
        | Settled.rejected => zeroCredentialResult) ∧
    ((runTestingAndExploitationPhase st0 c v p e).cveResult =
        match v with
        | Settled.fulfilled x => x
        | Settled.rejected => zeroCveResult) ∧
    ((runTestingAndExploitationPhase st0 c v p e).protocolResult =
        match p with
        | Settled.fulfilled x => x
        | Settled.rejected => zeroProtocolResult) ∧
    (c = Settled.rejected →
      "credential-tester" ∈ (runTestingAndExploitationPhase st0 c v p e).state.failedModules ∧
        lookupA (runTestingAndExploitationPhase st0 c v p e).state.moduleStatuses
          "credential-tester" = some "failed") ∧
    (v = Settled.rejected →
      "cve-scanner" ∈ (runTestingAndExploitationPhase st0 c v p e).state.failedModules ∧
        lookupA (runTestingAndExploitationPhase st0 c v p e).state.moduleStatuses
          "cve-scanner" = some "failed") ∧
    (p = Settled.rejected →
      "protocol-fuzzer" ∈ (runTestingAndExploitationPhase st0 c v p e).state.failedModules ∧
        lookupA (runTestingAndExploitationPhase st0 c v p e).state.moduleStatuses
          "protocol-fuzzer" = some "failed") ∧
    (∀ x, c = Settled.fulfilled x →
      "credential-tester" ∈
        (runTestingAndExploitationPhase st0 c v p e).state.completedModules ∧
        lookupA (runTestingAndExploitationPhase st0 c v p e).state.moduleStatuses
          "credential-tester" = some "completed") ∧
    (∀ x, v = Settled.fulfilled x →
      "cve-scanner" ∈
        (runTestingAndExploitationPhase st0 c v p e).state.completedModules ∧
        lookupA (runTestingAndExploitationPhase st0 c v p e).state.moduleStatuses
          "cve-scanner" = some "completed") ∧
    (∀ x, p = Settled.fulfilled x →
      "protocol-fuzzer" ∈
        (runTestingAndExploitationPhase st0 c v p e).state.completedModules ∧
        lookupA (runTestingAndExploitationPhase st0 c v p e).state.moduleStatuses
          "protocol-fuzzer" = some "completed") ∧
    (runTestingAndExploitationPhase st0 c v p e).state.currentPhase = "reporting" ∧
    ((runTestingAndExploitationPhase st0 c v p e).exploitationRan = true ↔
      0 < (runTestingAndExploitationPhase st0 c v p e).cveResult.vulnerabilitiesFound) := by
  cases c <;> cases v <;> cases p <;> cases e <;>
    simp [runTestingAndExploitationPhase, setStatus, lookupA, zeroCredentialResult,
      zeroCveResult, zeroProtocolResult, zeroExploitationResult] <;>
    (try (split_ifs <;> simp [lookupA]))

/-- C6 witness (the spec's scenario E): CVE rejected, the other two
fulfilled — credential and protocol results are preserved, the CVE result is
zeroed and marked failed, reporting is reached, exploitation is skipped. -/
theorem C6_witness :
    (runTestingAndExploitationPhase stW (Settled.fulfilled credW) Settled.rejected
        (Settled.fulfilled protoW) Settled.rejected).credentialResult = credW ∧
    (runTestingAndExploitationPhase stW (Settled.fulfilled credW) Settled.rejected
        (Settled.fulfilled protoW) Settled.rejected).cveResult = zeroCveResult ∧
    "cve-scanner" ∈ (runTestingAndExploitationPhase stW (Settled.fulfilled credW)
        Settled.rejected (Settled.fulfilled protoW) Settled.rejected).state.failedModules ∧
    (runTestingAndExploitationPhase stW (Settled.fulfilled credW) Settled.rejected
        (Settled.fulfilled protoW) Settled.rejected).state.currentPhase = "reporting" ∧
    (runTestingAndExploitationPhase stW (Settled.fulfilled credW) Settled.rejected
        (Settled.fulfilled protoW) Settled.rejected).exploitationRan = false := by
  have h := C6_parallel_branch_isolation stW (Settled.fulfilled credW) Settled.rejected
    (Settled.fulfilled protoW) Settled.rejected
  refine ⟨h.1, h.2.1, (h.2.2.2.2.1 rfl).1, h.2.2.2.2.2.2.2.2.2.1, ?_⟩
  have hiff := h.2.2.2.2.2.2.2.2.2.2
  rw [h.2.1] at hiff
  cases he : (runTestingAndExploitationPhase stW (Settled.fulfilled credW) Settled.rejected
      (Settled.fulfilled protoW) Settled.rejected).exploitationRan
  · rfl
  · exfalso
    have := hiff.mp he
    simp [zeroCveResult] at this

/-- C7: the session-terminality claim is right and the code is wrong:
`MetricsTracker.finalize` does set `completed` at the end of a successful
report activity, but `AuditSession.markFailed` has no call site anywhere in
the repository and every workflow failure path rethrows without touching
`session.json`, so a run whose discovery (or fingerprint, or report)
activity fails terminates with the status still `running` — not a terminal
`completed`/`failed`. -/
theorem C7_terminality_code_bug :
    finalSessionStatus ⟨false, false, true, true⟩ = SessionStatus.running ∧
    finalSessionStatus ⟨true, false, false, true⟩ = SessionStatus.running ∧
    finalSessionStatus ⟨true, false, true, false⟩ = SessionStatus.running ∧
    finalSessionStatus ⟨true, false, true, true⟩ = SessionStatus.completed ∧
    finalSessionStatus ⟨true, true, true, true⟩ = SessionStatus.completed := by
  decide

theorem digitCh_isDigit (n : Nat) : (digitCh n).isDigit = true := by
  unfold digitCh
  split <;> decide

theorem digitCh_not_colon (n : Nat) : ¬ digitCh n = ':' := by
  unfold digitCh
  split <;> decide

theorem digitCh_toNat (n : Nat) (h : n < 10) : (digitCh n).toNat - 48 = n := by
  interval_cases n <;> decide

theorem decAux_digits (fuel : Nat) :
    ∀ (n : Nat) (acc : List Char), (∀ c ∈ acc, c.isDigit = true) →
      ∀ c ∈ decAux fuel n acc, c.isDigit = true := by
  induction fuel with
  | zero =>
    intro n acc hacc c hc
    simp only [decAux, List.mem_cons] at hc
    rcases hc with rfl | hc
    · exact digitCh_isDigit _
    · exact hacc c hc
  | succ fuel ih =>
    intro n acc hacc c hc
    simp only [decAux] at hc
    split at hc
    · simp only [List.mem_cons] at hc
      rcases hc with rfl | hc
      · exact digitCh_isDigit _
      · exact hacc c hc
    · refine ih (n / 10) (digitCh (n % 10) :: acc) ?_ c hc
      intro c' hc'
      simp only [List.mem_cons] at hc'
      rcases hc' with rfl | hc'
      · exact digitCh_isDigit _
      · exact hacc c' hc'

theorem decAux_head (fuel : Nat) :
    ∀ (n : Nat) (acc : List Char),
      ∃ c l, decAux fuel n acc = c :: l ∧ c.isDigit = true := by
  induction fuel with
  | zero => exact fun n acc => ⟨_, _, rfl, digitCh_isDigit _⟩
  | succ fuel ih =>
    intro n acc
    simp only [decAux]
    split
    · exact ⟨_, _, rfl, digitCh_isDigit _⟩
    · exact ih (n / 10) _

theorem parseDigitsAux_decAux (fuel : Nat) :
    ∀ (n v : Nat) (acc : List Char),
      parseDigitsAux v (decAux fuel n acc) = parseDigitsAux (pushVal fuel v n) acc := by
  induction fuel with
  | zero =>
    intro n v acc
    simp only [decAux, pushVal, parseDigitsAux]
    rw [if_pos (digitCh_isDigit (n % 10)), digitCh_toNat (n % 10) (by omega)]
  | succ fuel ih =>
    intro n v acc
    simp only [decAux, pushVal]
    by_cases h : n < 10
    · rw [if_pos h, if_pos h]
      simp only [parseDigitsAux]
      rw [if_pos (digitCh_isDigit n), digitCh_toNat n h]
    · rw [if_neg h, if_neg h, ih]
      simp only [parseDigitsAux]
      rw [if_pos (digitCh_isDigit (n % 10)), digitCh_toNat (n % 10) (by omega)]

theorem pushVal_eq (n : Nat) : ∀ fuel v, n ≤ fuel → pushVal fuel v n = v * multBase n + n := by
  induction n using Nat.strong_induction_on with
  | _ n ih =>
    intro fuel v hle
    cases fuel with
    | zero =>
      have hz : n = 0 := by omega
      subst hz
      simp [pushVal, multBase]
    | succ fuel =>
      by_cases h : n < 10
      · rw [pushVal, if_pos h, multBase, dif_pos h]
      · have hdiv : n / 10 < n := Nat.div_lt_self (by omega) (by omega)
        have hdivle : n / 10 ≤ fuel := by omega
        rw [pushVal, if_neg h, ih (n / 10) hdiv fuel v hdivle]
        conv_rhs => rw [multBase]
        rw [dif_neg h]
        have hdm : n / 10 * 10 + n % 10 = n := by omega
        calc (v * multBase (n / 10) + n / 10) * 10 + n % 10
            = v * (10 * multBase (n / 10)) + (n / 10 * 10 + n % 10) := by ring
          _ = v * (10 * multBase (n / 10)) + n := by rw [hdm]

theorem parse_decRepr (n : Nat) : parseDigitsAux 0 (decRepr n) = n := by
  unfold decRepr
  rw [parseDigitsAux_decAux n n 0 []]
  simp only [parseDigitsAux]
  rw [pushVal_eq n n 0 le_rfl]
  simp

theorem jsParseInt_decRepr (n : Nat) : jsParseInt (decRepr n) = some n := by
  obtain ⟨c, l, he, hd⟩ := decAux_head n n []
  have hrepr : decRepr n = c :: l := he
  rw [hrepr, jsParseInt, if_pos hd, ← hrepr, parse_decRepr]

theorem colon_not_in_decRepr (n : Nat) : ¬ ':' ∈ decRepr n := by
  intro hmem
  have := decAux_digits n n [] (by intro c hc; cases hc) ':' hmem
  simp at this

theorem decRepr_inj (m n : Nat) (h : decRepr m = decRepr n) : m = n := by
  have := congrArg (parseDigitsAux 0) h
  rwa [parse_decRepr, parse_decRepr] at this

theorem afterColon_append (a b : List Char) (ha : ¬ ':' ∈ a) :
    afterColon (a ++ ':' :: b) = b := by
  induction a with
  | nil => simp [afterColon]
  | cons c a ih =>
    have hc : ¬ c = ':' := fun h => ha (by simp [h])
    simp only [List.cons_append, afterColon, if_neg hc]
    exact ih fun h => ha (List.mem_cons_of_mem _ h)

theorem takeWhile_not_colon (l : List Char) (h : ∀ c ∈ l, ¬ c = ':') :
    l.takeWhile (fun c => !(c = ':')) = l := by
  induction l with
  | nil => rfl
  | cons c l ih =>
    have hc : ¬ c = ':' := h c (List.mem_cons_self c l)
    simp only [List.takeWhile_cons]
    rw [if_pos (by simpa using hc)]
    rw [ih fun c' hc' => h c' (List.mem_cons_of_mem _ hc')]

theorem targetKey_data (t : FingerprintResult) :
    (targetKeyOf t).data = t.ip.data ++ ':' :: decRepr t.port := by
  simp [targetKeyOf, natToStr, String.data_append]

theorem secondSeg_targetKey (t : FingerprintResult) (hip : ¬ ':' ∈ t.ip.data) :
    secondSeg (targetKeyOf t) = decRepr t.port := by
  unfold secondSeg
  rw [targetKey_data, afterColon_append _ _ hip]
  apply takeWhile_not_colon
  intro c hc hcol
  subst hcol
  exact colon_not_in_decRepr t.port hc

theorem existingOwner_parse (t : FingerprintResult) (hip : ¬ ':' ∈ t.ip.data) :
    existingOwnerOnRtspPort (targetKeyOf t) = rtspKnownPorts.contains t.port := by
  unfold existingOwnerOnRtspPort
  rw [secondSeg_targetKey t hip, jsParseInt_decRepr]

theorem split_colon_inj (a : List Char) :
    ∀ (c b d : List Char), ¬ ':' ∈ a → ¬ ':' ∈ c →
      a ++ ':' :: b = c ++ ':' :: d → a = c ∧ b = d := by
  induction a with
  | nil =>
    intro c b d _ hc h
    cases c with
    | nil => simpa using h
    | cons c0 c' =>
      exfalso
      simp only [List.nil_append, List.cons_append, List.cons.injEq] at h
      exact hc (by simp [← h.1])
  | cons a0 a' ih =>
    intro c b d ha hc h
    cases c with
    | nil =>
      exfalso
      simp only [List.cons_append, List.nil_append, List.cons.injEq] at h
      exact ha (by simp [h.1])
    | cons c0 c' =>
      simp only [List.cons_append, List.cons.injEq] at h
      obtain ⟨rfl, h2⟩ := h
      obtain ⟨h3, h4⟩ := ih c' b d (fun hm => ha (List.mem_cons_of_mem _ hm))
        (fun hm => hc (List.mem_cons_of_mem _ hm)) h2
      exact ⟨by rw [h3], h4⟩

theorem targetKey_inj (t1 t2 : FingerprintResult)
    (h1 : ¬ ':' ∈ t1.ip.data) (h2 : ¬ ':' ∈ t2.ip.data)
    (h : targetKeyOf t1 = targetKeyOf t2) : t1.ip = t2.ip ∧ t1.port = t2.port := by
  have hd := congrArg String.data h
  rw [targetKey_data, targetKey_data] at hd
  obtain ⟨hip, hport⟩ := split_colon_inj t1.ip.data t2.ip.data _ _ h1 h2 hd
  exact ⟨String.ext hip, decRepr_inj _ _ hport⟩

theorem lookupA_cons_isSome {α : Type} (m : List (String × α)) (k ip : String) (v : α)
    (h : (lookupA m ip).isSome) : (lookupA ((k, v) :: m) ip).isSome := by
  simp only [lookupA]
  split <;> simp [h]

theorem ownerStep_inv (t : FingerprintResult) (processed : List FingerprintResult)
    (m : List (String × String))
    (hcf : ∀ u ∈ processed ++ [t], ¬ ':' ∈ u.ip.data)
    (hinv : OwnerInv processed m) :
    OwnerInv (processed ++ [t]) (ownerStep true m t) := by
  obtain ⟨h1, h2, h3⟩ := hinv
  by_cases hr : t.protocols.contains ProtocolType.rtsp = true
  · have hcond : (true && t.protocols.contains ProtocolType.rtsp) = true := by
      rw [Bool.true_and]; exact hr
    rcases hl : lookupA m t.ip with _ | existing
    · -- first record of this IP: insert
      have hstep : ownerStep true m t = (t.ip, targetKeyOf t) :: m := by
        unfold ownerStep
        rw [hcond, if_pos rfl]
        simp only [hl]
      rw [hstep]
      refine ⟨?_, ?_, ?_⟩
      · intro ip v hv
        by_cases hip : t.ip = ip
        · simp only [lookupA, if_pos hip] at hv
          exact ⟨t, List.mem_append_right _ (List.mem_singleton_self t), hip,
            hr, (Option.some_inj.mp hv).symm⟩
        · simp only [lookupA, if_neg hip] at hv
          obtain ⟨u, hu, h⟩ := h1 ip v hv
          exact ⟨u, List.mem_append_left _ hu, h⟩
      · intro u hu hur
        rcases List.mem_append.mp hu with hu | hu
        · exact lookupA_cons_isSome m _ _ _ (h2 u hu hur)
        · rw [List.mem_singleton.mp hu]
          simp [lookupA]
      · intro ip v hv hex
        by_cases hip : t.ip = ip
        · simp only [lookupA, if_pos hip] at hv
          obtain ⟨u, hu, huip, hurt, hukn⟩ := hex
          rcases List.mem_append.mp hu with hu | hu
          · exfalso
            have := h2 u hu hurt
            rw [huip, ← hip, hl] at this
            simp at this
          · rw [List.mem_singleton.mp hu] at hukn
            exact ⟨t, List.mem_append_right _ (List.mem_singleton_self t), hip, hr,
              (Option.some_inj.mp hv).symm, hukn⟩
        · simp only [lookupA, if_neg hip] at hv
          obtain ⟨u, hu, huip, hurt, hukn⟩ := hex
          rcases List.mem_append.mp hu with hu | hu
          · obtain ⟨w, hw, h⟩ := h3 ip v hv ⟨u, hu, huip, hurt, hukn⟩
            exact ⟨w, List.mem_append_left _ hw, h⟩
          · exfalso
            rw [List.mem_singleton.mp hu] at huip
            exact hip huip
    · -- an owner exists: replace or keep
      by_cases hrep : (rtspKnownPorts.contains t.port &&
          !existingOwnerOnRtspPort existing) = true
      · have hstep : ownerStep true m t = (t.ip, targetKeyOf t) :: m := by
          unfold ownerStep
          rw [hcond, if_pos rfl]
          simp only [hl, if_pos hrep]
        rw [hstep]
        have htkn : rtspKnownPorts.contains t.port = true := by
          have h := hrep
          rw [Bool.and_eq_true] at h
          exact h.1
        refine ⟨?_, ?_, ?_⟩
        · intro ip v hv
          by_cases hip : t.ip = ip
          · simp only [lookupA, if_pos hip] at hv
            exact ⟨t, List.mem_append_right _ (List.mem_singleton_self t), hip, hr,
              (Option.some_inj.mp hv).symm⟩
          · simp only [lookupA, if_neg hip] at hv
            obtain ⟨u, hu, h⟩ := h1 ip v hv
            exact ⟨u, List.mem_append_left _ hu, h⟩
        · intro u hu hur
          rcases List.mem_append.mp hu with hu | hu
          · exact lookupA_cons_isSome m _ _ _ (h2 u hu hur)
          · rw [List.mem_singleton.mp hu]
            simp [lookupA]
        · intro ip v hv hex
          by_cases hip : t.ip = ip
          · simp only [lookupA, if_pos hip] at hv
            exact ⟨t, List.mem_append_right _ (List.mem_singleton_self t), hip, hr,
              (Option.some_inj.mp hv).symm, htkn⟩
          · simp only [lookupA, if_neg hip] at hv
            obtain ⟨u, hu, huip, hurt, hukn⟩ := hex
            rcases List.mem_append.mp hu with hu | hu
            · obtain ⟨w, hw, h⟩ := h3 ip v hv ⟨u, hu, huip, hurt, hukn⟩
              exact ⟨w, List.mem_append_left _ hw, h⟩
            · exfalso
              rw [List.mem_singleton.mp hu] at huip
              exact hip huip
      · have hstep : ownerStep true m t = m := by
          unfold ownerStep
          rw [hcond, if_pos rfl]
          simp only [hl, if_neg hrep]
        rw [hstep]
        refine ⟨?_, ?_, ?_⟩
        · intro ip v hv
          obtain ⟨u, hu, h⟩ := h1 ip v hv
          exact ⟨u, List.mem_append_left _ hu, h⟩
        · intro u hu hur
          rcases List.mem_append.mp hu with hu | hu
          · exact h2 u hu hur
          · rw [List.mem_singleton.mp hu, hl]
            rfl
        · intro ip v hv hex
          obtain ⟨u, hu, huip, hurt, hukn⟩ := hex
          rcases List.mem_append.mp hu with hu | hu
          · obtain ⟨w, hw, h⟩ := h3 ip v hv ⟨u, hu, huip, hurt, hukn⟩
            exact ⟨w, List.mem_append_left _ hw, h⟩
          · -- the known-port record is t itself; the standing owner must
            -- already be on a known RTSP port
            have hteq : u = t := List.mem_singleton.mp hu
            have htip : t.ip = ip := by rw [← hteq]; exact huip
            have hukn2 : rtspKnownPorts.contains t.port = true := by
              rw [← hteq]; exact hukn
            have hb : existingOwnerOnRtspPort existing = true := by
              by_contra hbne
              have hb2 : existingOwnerOnRtspPort existing = false := by
                simpa using hbne
              exact hrep (by rw [hukn2, hb2]; rfl)
            have hl2 : lookupA m ip = some existing := by rw [← htip]; exact hl
            have hve : v = existing := by
              rw [hv] at hl2
              exact (Option.some_inj.mp hl2.symm).symm
            obtain ⟨t0, ht0, ht0ip, ht0r, ht0key⟩ := h1 ip existing hl2
            have ht0cf : ¬ ':' ∈ t0.ip.data := hcf t0 (List.mem_append_left _ ht0)
            have ht0kn : rtspKnownPorts.contains t0.port = true := by
              rw [ht0key] at hb
              rwa [existingOwner_parse t0 ht0cf] at hb
            exact ⟨t0, List.mem_append_left _ ht0, ht0ip, ht0r, by rw [hve, ht0key],
              ht0kn⟩
  · have hrf : t.protocols.contains ProtocolType.rtsp = false := by simpa using hr
    have hstep : ownerStep true m t = m := by
      unfold ownerStep
      rw [Bool.true_and, hrf]
      simp
    rw [hstep]
    refine ⟨?_, ?_, ?_⟩
    · intro ip v hv
      obtain ⟨u, hu, h⟩ := h1 ip v hv
      exact ⟨u, List.mem_append_left _ hu, h⟩
    · intro u hu hur
      rcases List.mem_append.mp hu with hu | hu
      · exact h2 u hu hur
      · exfalso
        rw [List.mem_singleton.mp hu] at hur
        rw [hur] at hrf
        cases hrf
    · intro ip v hv hex
      obtain ⟨u, hu, huip, hurt, hukn⟩ := hex
      rcases List.mem_append.mp hu with hu | hu
      · obtain ⟨w, hw, h⟩ := h3 ip v hv ⟨u, hu, huip, hurt, hukn⟩
        exact ⟨w, List.mem_append_left _ hw, h⟩
      · exfalso
        rw [List.mem_singleton.mp hu] at hurt
        rw [hurt] at hrf
        cases hrf

theorem ownerFold_inv (ts : List FingerprintResult) :
    ∀ (processed : List FingerprintResult) (m : List (String × String)),
      (∀ u ∈ processed ++ ts, ¬ ':' ∈ u.ip.data) →
      OwnerInv processed m →
      OwnerInv (processed ++ ts) (ts.foldl (ownerStep true) m) := by
  induction ts with
  | nil =>
    intro processed m _ hinv
    simpa using hinv
  | cons t ts ih =>
    intro processed m hcf hinv
    have hstep := ownerStep_inv t processed m
      (by
        intro u hu
        rcases List.mem_append.mp hu with hu | hu
        · exact hcf u (List.mem_append_left _ hu)
        · rw [List.mem_singleton.mp hu]
          exact hcf t (List.mem_append_right _ (List.mem_cons_self t ts)))
      hinv
    have := ih (processed ++ [t]) (ownerStep true m t)
      (by
        intro u hu
        apply hcf
        rw [List.append_assoc] at hu
        simpa using hu)
      hstep
    rw [List.append_assoc] at this
    simpa using this

theorem ownerMap_inv (targets : List FingerprintResult)
    (hcf : ∀ u ∈ targets, ¬ ':' ∈ u.ip.data) :
    OwnerInv targets (rtspFuzzOwnerMap true targets) := by
  have hempty : OwnerInv [] [] := by
    refine ⟨?_, ?_, ?_⟩
    · intro ip v hv
      cases hv
    · intro u hu
      cases hu
    · intro ip v hv
      cases hv
  have := ownerFold_inv targets [] [] (by simpa using hcf) hempty
  simpa [rtspFuzzOwnerMap] using this

theorem countP_key_eq_one (l : List FingerprintResult) (t0 : FingerprintResult)
    (h0 : t0 ∈ l)
    (hp : l.Pairwise (fun a b => targetKeyOf a ≠ targetKeyOf b)) :
    l.countP (fun t => decide (targetKeyOf t = targetKeyOf t0)) = 1 := by
  induction l with
  | nil => cases h0
  | cons a l ih =>
    rw [List.countP_cons]
    obtain ⟨hhead, htail⟩ := List.pairwise_cons.mp hp
    rcases List.mem_cons.mp h0 with heq | hmem
    · subst heq
      have hzero : l.countP (fun t => decide (targetKeyOf t = targetKeyOf t0)) = 0 := by
        rw [List.countP_eq_zero]
        intro b hb
        simp only [decide_eq_true_eq]
        exact fun hbe => hhead b hb hbe.symm
      simp [hzero]
    · have hne : ¬ targetKeyOf a = targetKeyOf t0 := hhead t0 hmem
      rw [ih hmem htail]
      simp [hne]

/-- C9 counterexample: an input list with the same RTSP record twice (same
IP, same port) — both copies' keys equal the owner entry, so both perform
the RTSP fuzzing pass: the count for that IP is 2, not exactly one. -/
theorem C9_counterexample :
    ([tdup, tdup].countP (fun t => decide (t.ip = "192.0.2.20") &&
        performsRtspFuzz cfgDefaults [tdup, tdup] t)) = 2 ∧
    tdup.protocols.contains ProtocolType.rtsp = true ∧
    cfgDefaults.protocols.rtsp = true := by
  refine ⟨by decide, by decide, by decide⟩

/-- C9 (amended): with RTSP enabled, for every input list of fingerprint
records that are pairwise distinct on `(ip, port)` and whose IP strings
contain no colon (as IPv4 dotted quads do not — the owner map stores
`"ip:port"` strings and parses the port back at the first colon), every IP
with at least one RTSP-advertising record has exactly one record performing
the RTSP fuzzing pass, and whenever some record of that IP advertises RTSP
on a known RTSP port, every performing record of that IP is on a known RTSP
port. -/
theorem C9_rtsp_owner_uniqueness (cfg : VeilcamsConfig)
    (targets : List FingerprintResult)
    (hen : cfg.protocols.rtsp = true)
    (hcf : ∀ t ∈ targets, ¬ ':' ∈ t.ip.data)
    (hdist : targets.Pairwise (fun a b => a.ip ≠ b.ip ∨ a.port ≠ b.port)) :
    (∀ ip, (∃ t ∈ targets, t.ip = ip ∧
        t.protocols.contains ProtocolType.rtsp = true) →
      targets.countP (fun t => decide (t.ip = ip) &&
        performsRtspFuzz cfg targets t) = 1) ∧
    (∀ ip, (∃ t ∈ targets, t.ip = ip ∧
        t.protocols.contains ProtocolType.rtsp = true ∧
        rtspKnownPorts.contains t.port = true) →
      ∀ t ∈ targets, performsRtspFuzz cfg targets t = true → t.ip = ip →
        rtspKnownPorts.contains t.port = true) := by
  have hkey : targets.Pairwise (fun a b => targetKeyOf a ≠ targetKeyOf b) := by
    refine hdist.imp_of_mem ?_
    intro a b ha hb hab he
    obtain ⟨hip, hport⟩ := targetKey_inj a b (hcf a ha) (hcf b hb) he
    rcases hab with h | h
    · exact h hip
    · exact h hport
  obtain ⟨i1, i2, i3⟩ := ownerMap_inv targets hcf
  have hsym : Symmetric (fun a b : FingerprintResult =>
      targetKeyOf a ≠ targetKeyOf b) := fun x y h he => h he.symm
  have hforall : ∀ a ∈ targets, ∀ b ∈ targets, a ≠ b →
      targetKeyOf a ≠ targetKeyOf b := by
    intro a ha b hb hne
    exact List.Pairwise.forall hsym hkey ha hb hne
  constructor
  · intro ip hex
    obtain ⟨tr, htr, htrip, htrr⟩ := hex
    have hsome : (lookupA (rtspFuzzOwnerMap true targets) tr.ip).isSome := i2 tr htr htrr
    rw [htrip] at hsome
    rcases hlk : lookupA (rtspFuzzOwnerMap true targets) ip with _ | v
    · rw [hlk] at hsome
      cases hsome
    obtain ⟨t0, ht0, ht0ip, ht0r, ht0key⟩ := i1 ip v hlk
    have hpred : ∀ t ∈ targets,
        (decide (t.ip = ip) && performsRtspFuzz cfg targets t) =
          decide (targetKeyOf t = targetKeyOf t0) := by
      intro t ht
      by_cases hk : targetKeyOf t = targetKeyOf t0
      · have hteq : t = t0 := by
          by_contra hne
          exact hforall t ht t0 ht0 hne hk
        subst hteq
        have hperf : performsRtspFuzz cfg targets t = true := by
          unfold performsRtspFuzz
          rw [hen, ht0r]
          simp only [Bool.true_and]
          rw [ht0ip, hlk, ht0key]
          simp
        rw [hperf, ht0ip]
        simp [hk]
      · have : (decide (t.ip = ip) && performsRtspFuzz cfg targets t) = false := by
          by_cases hip : t.ip = ip
          · have : performsRtspFuzz cfg targets t = false := by
              unfold performsRtspFuzz
              rw [hen, hip, hlk, ht0key]
              have : ¬ (some (targetKeyOf t0) = some (targetKeyOf t)) := by
                intro hc
                exact hk (Option.some_inj.mp hc).symm
              simp [this]
            simp [this]
          · simp [hip]
        rw [this]
        simp [hk]
    rw [List.countP_congr (fun x hx => by rw [hpred x hx])]
    exact countP_key_eq_one targets t0 ht0 hkey
  · intro ip hex t ht hperf htip
    unfold performsRtspFuzz at hperf
    rw [hen] at hperf
    simp only [Bool.true_and, Bool.and_eq_true, decide_eq_true_eq] at hperf
    obtain ⟨hrt, hlk⟩ := hperf
    rw [htip] at hlk
    obtain ⟨u, hu, huip, hurt, hukn⟩ := hex
    obtain ⟨t0, ht0, ht0ip, ht0r, ht0key, ht0kn⟩ :=
      i3 ip (targetKeyOf t) hlk ⟨u, hu, huip, hurt, hukn⟩
    obtain ⟨_, hport⟩ := targetKey_inj t t0 (hcf t ht) (hcf t0 ht0) ht0key
    rw [hport]
    exact ht0kn

/-- C9 witness (the spec's scenario F): records on :80 and :554 of one IP,
both advertising RTSP — exactly one performs the RTSP pass. -/
theorem C9_witness :
    ([t80w, tdup].countP (fun t => decide (t.ip = "192.0.2.20") &&
        performsRtspFuzz cfgDefaults [t80w, tdup] t)) = 1 := by
  have h := C9_rtsp_owner_uniqueness cfgDefaults [t80w, tdup] rfl (by decide) (by decide)
  exact h.1 "192.0.2.20" ⟨tdup, by decide, rfl, by decide⟩

/-- C8 witness: a Hikvision target under the defaults-enabled configuration. -/
theorem C8_witness :
    buildCredentialList targetC2 cfgDefaults =
      dedupByKeySeen []
        (DEFAULT_CREDENTIALS CameraVendor.hikvision ++
          DEFAULT_CREDENTIALS CameraVendor.unknown ++ [⟨"admin", "admin"⟩]) ∧
    List.Pairwise (fun a b => credKey a ≠ credKey b)
      (buildCredentialList targetC2 cfgDefaults) := by
  have h := C8_buildCredentialList_ordered_dedup targetC2 cfgDefaults rfl
  simpa [targetC2, cfgDefaults] using h

/-- The initial `parallelLimit` state satisfies the execution invariant. -/
theorem plInv_init (α ε : Type) (outcomes : Nat → PSettled α ε) (cap : Int)
    (n : Nat) : PLInv α ε outcomes cap n (plInit α ε cap n) := by
  refine ⟨List.length_replicate _ _, List.length_replicate _ _, Nat.zero_le _,
    ?_, ?_, ?_, ?_⟩
  · intro i r h
    simp only [plInit, List.getElem?_replicate] at h
    split at h
    · cases h
    · cases h
  · intro i hi
    exact absurd hi (Nat.not_lt_zero i)
  · intro w i h
    simp only [plInit, List.getElem?_replicate] at h
    split at h
    · cases h
    · cases h
  · intro hmem
    simp only [plInit] at hmem
    cases List.eq_of_mem_replicate hmem

/-- No step is possible once the worker pool is empty. -/
theorem plStep_none_of_workers_nil (α ε : Type) (outcomes : Nat → PSettled α ε)
    (s t : PLState α ε) (snil : s.workers = [])
    (hstep : PLStep α ε outcomes s t) : False := by
  cases hstep with
  | claim w hw hidx =>
      rw [snil] at hw
      cases hw
  | retire w hw hidx =>
      rw [snil] at hw
      cases hw
  | settle w i hw =>
      rw [snil] at hw
      cases hw

/-- With a non-positive cap the worker pool is empty, so the only reachable
state is the initial one: no slot is ever filled. -/
theorem plReach_eq_init_of_cap_nonpos (α ε : Type)
    (outcomes : Nat → PSettled α ε) (cap : Int) (n : Nat) (s : PLState α ε)
    (hcap : cap ≤ 0)
    (h : Relation.ReflTransGen (PLStep α ε outcomes) (plInit α ε cap n) s) :
    s = plInit α ε cap n := by
  have hz : (min cap (n : Int)).toNat = 0 := by omega
  have hwnil : (plInit α ε cap n).workers = [] := by
    simp [plInit, hz]
  induction h with
  | refl => rfl
  | tail hab hbc ih =>
      rw [ih] at hbc
      exact absurd hbc
        (fun hs => plStep_none_of_workers_nil α ε outcomes _ _ hwnil hs)

/-- Every `parallelLimit` step preserves the execution invariant. -/
theorem plInv_step (α ε : Type) (outcomes : Nat → PSettled α ε) (cap : Int)
    (n : Nat) (s t : PLState α ε) (hinv : PLInv α ε outcomes cap n s)
    (hstep : PLStep α ε outcomes s t) : PLInv α ε outcomes cap n t := by
  obtain ⟨h1, h2, h3, h4, h5, h6, h7⟩ := hinv
  cases hstep with
  | claim w hw hidx =>
      simp only [PLInv]
      have hwlt : w < s.workers.length := (List.getElem?_eq_some.mp hw).1
      refine ⟨h1, ?_, ?_, h4, ?_, ?_, ?_⟩
      · rw [List.length_set]
        exact h2
      · rw [h1] at hidx
        omega
      · intro i hi
        by_cases hii : i = s.nextIdx
        · subst hii
          right
          exact ⟨w, by rw [List.getElem?_set_self (by simpa using hwlt)]⟩
        · rcases h5 i (by omega) with hfill | ⟨w', hw'⟩
          · left
            exact hfill
          · right
            by_cases hww : w' = w
            · subst hww
              rw [hw] at hw'
              exact absurd (Option.some.inj hw') (by simp)
            · exact ⟨w', by
                rw [List.getElem?_set_ne (fun h => hww h.symm)]
                exact hw'⟩
      · intro w' i hw'
        by_cases hww : w' = w
        · subst hww
          rw [List.getElem?_set_self (by simpa using hwlt)] at hw'
          simp at hw'
          omega
        · rw [List.getElem?_set_ne (fun h => hww h.symm)] at hw'
          have := h6 w' i hw'
          omega
      · intro hmem
        rcases List.mem_or_eq_of_mem_set hmem with hmem' | heq
        · have := h7 hmem'
          omega
        · exact WStatus.noConfusion heq
  | retire w hw hidx =>
      simp only [PLInv]
      refine ⟨h1, ?_, h3, h4, ?_, ?_, ?_⟩
      · rw [List.length_set]
        exact h2
      · intro i hi
        rcases h5 i hi with hfill | ⟨w', hw'⟩
        · left
          exact hfill
        · right
          by_cases hww : w' = w
          · subst hww
            rw [hw] at hw'
            exact absurd (Option.some.inj hw') (by simp)
          · exact ⟨w', by
              rw [List.getElem?_set_ne (fun h => hww h.symm)]
              exact hw'⟩
      · intro w' i hw'
        by_cases hww : w' = w
        · subst hww
          have hwlt : w' < s.workers.length := (List.getElem?_eq_some.mp hw).1
          rw [List.getElem?_set_self (by simpa using hwlt)] at hw'
          exact absurd (Option.some.inj hw') (by simp)
        · rw [List.getElem?_set_ne (fun h => hww h.symm)] at hw'
          exact h6 w' i hw'
      · intro hmem
        rw [h1] at hidx
        omega
  | settle w i hw =>
      simp only [PLInv]
      have hwlt : w < s.workers.length := (List.getElem?_eq_some.mp hw).1
      have hin : i < s.nextIdx := h6 w i hw
      have hilen : i < s.results.length := by
        rw [h1]
        omega
      refine ⟨?_, ?_, h3, ?_, ?_, ?_, ?_⟩
      · rw [List.length_set]
        exact h1
      · rw [List.length_set]
        exact h2
      · intro j r hj
        by_cases hji : j = i
        · subst hji
          rw [List.getElem?_set_self (by simpa using hilen)] at hj
          exact (Option.some.inj (Option.some.inj hj)).symm
        · rw [List.getElem?_set_ne (fun h => hji h.symm)] at hj
          exact h4 j r hj
      · intro j hj
        by_cases hji : j = i
        · subst hji
          left
          rw [List.getElem?_set_self (by simpa using hilen)]
        · rcases h5 j hj with hfill | ⟨w', hw'⟩
          · left
            rw [List.getElem?_set_ne (fun h => hji h.symm)]
            exact hfill
          · by_cases hww : w' = w
            · subst hww
              rw [hw] at hw'
              have hij := Option.some.inj hw'
              simp at hij
              exact absurd hij.symm hji
            · right
              exact ⟨w', by
                rw [List.getElem?_set_ne (fun h => hww h.symm)]
                exact hw'⟩
      · intro w' j hw'
        by_cases hww : w' = w
        · subst hww
          rw [List.getElem?_set_self (by simpa using hwlt)] at hw'
          exact absurd (Option.some.inj hw') (by simp)
        · rw [List.getElem?_set_ne (fun h => hww h.symm)] at hw'
          exact h6 w' j hw'
      · intro hmem
        rcases List.mem_or_eq_of_mem_set hmem with hmem' | heq
        · exact h7 hmem'
        · exact WStatus.noConfusion heq

/-- Every state reachable from the initial `parallelLimit` state satisfies
the execution invariant. -/
theorem plInv_reach (α ε : Type) (outcomes : Nat → PSettled α ε) (cap : Int)
    (n : Nat) (s : PLState α ε)
    (h : Relation.ReflTransGen (PLStep α ε outcomes) (plInit α ε cap n) s) :
    PLInv α ε outcomes cap n s := by
  induction h with
  | refl => exact plInv_init α ε outcomes cap n
  | tail hab hbc ih => exact plInv_step α ε outcomes cap n _ _ ih hbc

/-- C10: over every event-loop interleaving of `parallelLimit` on `n` tasks
whose task `i` settles as `outcomes i` (fulfilled with its value or rejected
with its reason) under concurrency cap `cap`, every reachable state has at
most `max cap 0` tasks in flight at once; when all workers have returned,
slot `i` of the results holds exactly the settlement of task `i` for every
`i < n` — so with `cap ≥ 1` every task is executed to settlement at its own
position, and no task's rejection prevents any other task from running; and
when `cap ≤ 0`, no worker is started: the initial state, with every slot
unfilled, is the only reachable state and `parallelLimit` resolves with it. -/
theorem C10_parallelLimit_settlement (α ε : Type)
    (outcomes : Nat → PSettled α ε) (cap : Int) (n : Nat) (s : PLState α ε)
    (hreach : Relation.ReflTransGen (PLStep α ε outcomes) (plInit α ε cap n) s) :
    ((s.workers.countP WStatus.inFlight : Int) ≤ max cap 0) ∧
    ((∀ x ∈ s.workers, x = WStatus.done) → 1 ≤ cap →
      s.results = (List.range n).map (fun i => some (outcomes i))) ∧
    (cap ≤ 0 → s = plInit α ε cap n) := by
  obtain ⟨h1, h2, h3, h4, h5, h6, h7⟩ :=
    plInv_reach α ε outcomes cap n s hreach
  refine ⟨?_, ?_, ?_⟩
  · have hcle : s.workers.countP WStatus.inFlight ≤ s.workers.length :=
      List.countP_le_length _
    rw [h2] at hcle
    omega
  · intro hterm hcap
    by_cases hn : n = 0
    · subst hn
      rw [List.eq_nil_of_length_eq_zero h1]
      rfl
    · have hlen : 0 < s.workers.length := by
        rw [h2]
        omega
      have hx : s.workers ≠ [] := by
        intro hnil
        rw [hnil] at hlen
        exact absurd hlen (by simp)
      obtain ⟨x, hxmem⟩ := List.exists_mem_of_ne_nil s.workers hx
      have hdone : WStatus.done ∈ s.workers := by
        rw [← hterm x hxmem]
        exact hxmem
      have hnext : n ≤ s.nextIdx := h7 hdone
      refine List.ext_getElem? ?_
      intro i
      by_cases hi : i < n
      · have hfill : s.results[i]? = some (some (outcomes i)) := by
          rcases h5 i (by omega) with hf | ⟨w, hw⟩
          · exact hf
          · exfalso
            have hmem : WStatus.awaiting i ∈ s.workers := by
              rw [← List.get?_eq_getElem?] at hw
              exact List.get?_mem hw
            exact WStatus.noConfusion (hterm _ hmem)
        rw [hfill, List.getElem?_map, List.getElem?_range hi]
        rfl
      · rw [List.getElem?_eq_none (by omega : s.results.length ≤ i),
          List.getElem?_eq_none]
        simp
        omega
  · intro hcap
    exact plReach_eq_init_of_cap_nonpos α ε outcomes cap n s hcap hreach

/-- C10 witness: a concrete one-worker run over two tasks (the first
fulfils, the second rejects) reaching the terminal state `sW`, whose result
array is exactly the two settlements in position, within the cap bound. -/
theorem C10_witness :
    sW.results = (List.range 2).map (fun i => some (outcomesW i)) ∧
    ((sW.workers.countP WStatus.inFlight : Int) ≤ max 1 0) := by
  have hreach :
      Relation.ReflTransGen (PLStep Nat String outcomesW)
        (plInit Nat String 1 2) sW := by
    refine Relation.ReflTransGen.head (PLStep.claim _ 0 (by decide) (by decide)) ?_
    refine Relation.ReflTransGen.head (PLStep.settle _ 0 0 (by decide)) ?_
    refine Relation.ReflTransGen.head (PLStep.claim _ 0 (by decide) (by decide)) ?_
    refine Relation.ReflTransGen.head (PLStep.settle _ 0 1 (by decide)) ?_
    refine Relation.ReflTransGen.head (PLStep.retire _ 0 (by decide) (by decide)) ?_
    exact Relation.ReflTransGen.refl
  have h := C10_parallelLimit_settlement Nat String outcomesW 1 2 sW hreach
  exact ⟨h.2.1 (by decide) (by decide), h.1⟩

end Veilcams
